import Mathlib

/-!
Verification of the Symbion kernel (symbion-kernel) against its
natural-language specification.  The Rust sources are shallowly embedded:
pure logic is translated to Lean functions, the clock is an explicit
integer parameter (seconds since epoch, matching whole-second arithmetic
on OffsetDateTime), process-spawn and child-exit outcomes are explicit
parameters, and HashMap state is modelled as association lists with
HashMap key semantics (a key occurs at most once; insert replaces).
Formatted error-message strings of the Rust code are abstracted into
structured error constructors where noted.
-/

namespace Symbion

/-- Circuit-breaker state of a plugin (plugins.rs, enum CircuitState). -/
inductive CircuitState
  | Normal
  | Degraded
  | CircuitOpen
deriving DecidableEq, Repr

/-- Run status of a plugin (plugins.rs, enum PluginStatus).  The Failed
variant carries the reason string, as in the source. -/
inductive PluginStatus
  | Stopped
  | WaitingDependencies
  | Starting
  | Running
  | Stopping
  | Killed
  | Failed (reason : String)
  | SafeMode
deriving DecidableEq, Repr

/-- Plugin manifest (plugins.rs, struct PluginManifest).  The binary path
is kept as a string; the optional description and env overlay do not
influence any claim logic but are kept for shape. -/
structure PluginManifest where
  name : String
  version : String
  binary : String
  contracts : List String
  auto_start : Bool
  restart_on_failure : Bool
  startup_timeout_seconds : Nat
  shutdown_timeout_seconds : Nat
  depends_on : List String
  start_priority : Int
deriving DecidableEq, Repr

/-- Running instance of a plugin (plugins.rs, struct PluginInstance).
The child-process handle Option Child is modelled by Option Unit: only
its presence matters to the kernel logic; what the child does is
supplied as explicit outcome parameters to the operations below. -/
structure PluginInstance where
  manifest : PluginManifest
  process : Option Unit
  status : PluginStatus
  started_at : Option Int
  last_activity : Option Int
  restart_count : Nat
  instance_id : String
  last_restart_attempt : Option Int
  circuit_state : CircuitState
  last_working_manifest : Option PluginManifest
deriving DecidableEq, Repr

/-- PluginInstance::new. -/
def PluginInstance.mkNew (manifest : PluginManifest) (iid : String) : PluginInstance :=
  { manifest := manifest
    process := none
    status := .Stopped
    started_at := none
    last_activity := none
    restart_count := 0
    instance_id := iid
    last_restart_attempt := none
    circuit_state := .Normal
    last_working_manifest := none }

/-- PluginInstance::update_circuit_state.  Stamps the restart attempt,
then maps restart_count 0..=2 to Normal, 3..=5 to Degraded, and 6 or
more to CircuitOpen, additionally forcing the status to SafeMode in the
CircuitOpen branch. -/
def PluginInstance.update_circuit_state (now : Int) (p : PluginInstance) : PluginInstance :=
  let q := { p with last_restart_attempt := some now }
  if q.restart_count ≤ 2 then
    { q with circuit_state := .Normal }
  else if q.restart_count ≤ 5 then
    { q with circuit_state := .Degraded }
  else
    { q with circuit_state := .CircuitOpen, status := .SafeMode }

/-- PluginInstance::can_restart.  Normal always allows a restart;
Degraded requires 60 seconds since the last attempt (or no recorded
attempt); CircuitOpen requires 300 seconds since the last attempt and
denies when no attempt is recorded. -/
def PluginInstance.can_restart (now : Int) (p : PluginInstance) : Bool :=
  match p.circuit_state with
  | .Normal => true
  | .Degraded =>
    match p.last_restart_attempt with
    | some t => 60 ≤ now - t
    | none => true
  | .CircuitOpen =>
    match p.last_restart_attempt with
    | some t => 300 ≤ now - t
    | none => false

/-- Structured plugin errors (plugins.rs, enum PluginError).  The Rust
code folds dependency-cycle and iteration-cap failures into formatted
StartFailed strings; here they are separate constructors carrying the
same data that the Rust message interpolates. -/
inductive PluginError
  | NotFound (name : String)
  | AlreadyLoaded (name : String)
  | StartFailed (msg : String)
  | CircularDependencies (unresolved : List (String × List String))
  | MaxIterationsReached (remaining : List String)
deriving DecidableEq, Repr

/-- Environment outcome of PluginInstance::stop once a child process is
present: the child exits within the shutdown timeout (cleanly or not),
is still alive at the timeout (forced kill), or the SIGTERM or wait
system call fails. -/
inductive StopOutcome
  | exits (clean : Bool)
  | timeoutThenKill
  | sigtermError
  | waitError
deriving DecidableEq, Repr

/-- Environment outcome of one non-blocking try_wait poll in
PluginInstance::check_health. -/
inductive HealthOutcome
  | exited (clean : Bool)
  | alive
  | waitFailed
deriving DecidableEq, Repr

/-- PluginInstance::start.  The Command::spawn outcome is the explicit
parameter spawnOk; the OS error text interpolated into the Rust
messages is abstracted to fixed words.  On success the process handle
appears, the status becomes Running, the started and activity stamps
are set, the current manifest is saved as last working and the breaker
returns to Normal.  On spawn failure the status becomes Failed and the
circuit state is updated. -/
def PluginInstance.start (spawnOk : Bool) (now : Int) (p : PluginInstance) :
    PluginInstance × Except PluginError Unit :=
  if p.status = .Running ∨ p.status = .Starting then
    (p, .error (.AlreadyLoaded p.manifest.name))
  else if spawnOk then
    ({ p with process := some ()
              status := .Running
              started_at := some now
              last_activity := some now
              last_working_manifest := some p.manifest
              circuit_state := .Normal }, .ok ())
  else
    let q := { p with status := PluginStatus.Failed "Start failed: spawn error" }
    (q.update_circuit_state now,
     .error (.StartFailed (p.manifest.name ++ ": spawn error")))

/-- PluginInstance::stop.  When a process handle is present it is taken
(the field becomes empty on every path) and the supplied outcome decides
the final status: Stopped on exit within the timeout, Killed after a
forced kill, Failed with an error when SIGTERM or the wait fails.  When
no handle is present the status simply becomes Stopped. -/
def PluginInstance.stop (o : StopOutcome) (p : PluginInstance) :
    PluginInstance × Except PluginError Unit :=
  match p.process with
  | some _ =>
    match o with
    | .sigtermError =>
      ({ p with process := none, status := PluginStatus.Failed "SIGTERM failed" },
       .error (.StartFailed "SIGTERM failed"))
    | .exits _ =>
      ({ p with process := none, status := .Stopped, started_at := none }, .ok ())
    | .timeoutThenKill =>
      ({ p with process := none, status := .Killed, started_at := none }, .ok ())
    | .waitError =>
      ({ p with process := none, status := PluginStatus.Failed "Wait error" },
       .error (.StartFailed "Wait error"))
  | none => ({ p with status := .Stopped, started_at := none }, .ok ())

/-- PluginInstance::check_health.  Returns the updated instance and
whether the child is still alive; a reported exit or poll error clears
the process handle and marks the plugin Failed. -/
def PluginInstance.check_health (o : HealthOutcome) (p : PluginInstance) :
    PluginInstance × Bool :=
  match p.process with
  | some _ =>
    match o with
    | .exited true =>
      ({ p with status := PluginStatus.Failed "exited normally", process := none }, false)
    | .exited false =>
      ({ p with status := PluginStatus.Failed "exited with status", process := none }, false)
    | .alive => (p, true)
    | .waitFailed =>
      ({ p with status := PluginStatus.Failed "Health check error", process := none }, false)
  | none => (p, false)

/-- PluginInstance::mark_activity. -/
def PluginInstance.mark_activity (now : Int) (p : PluginInstance) : PluginInstance :=
  { p with last_activity := some now }

/-- Outcome shaping of PluginInstance::attempt_rollback: on a failed
start the previously current manifest is restored. -/
def rollback_finish (cur : PluginManifest) :
    PluginInstance × Except PluginError Unit → PluginInstance × Except PluginError Unit
  | (p1, .ok _) => (p1, .ok ())
  | (p1, .error e) => ({ p1 with manifest := cur }, .error e)

/-- PluginInstance::attempt_rollback.  Swaps in the last working
manifest and tries a normal start; on failure the current manifest is
restored and the error propagated. -/
def PluginInstance.attempt_rollback (spawnOk : Bool) (now : Int) (p : PluginInstance) :
    PluginInstance × Except PluginError Unit :=
  match p.last_working_manifest with
  | some wm =>
    rollback_finish p.manifest (PluginInstance.start spawnOk now { p with manifest := wm })
  | none => (p, .error (.StartFailed "No working manifest available for rollback"))

/-- Plugin map of the PluginManager (HashMap name to instance, modelled
as an association list whose keys occur at most once). -/
abbrev Mgr := List (String × PluginInstance)

/-- First-binding lookup, matching HashMap::get. -/
def lookupP : Mgr → String → Option PluginInstance
  | [], _ => none
  | (k, p) :: rest, n => if k = n then some p else lookupP rest n

/-- In-place update of the first binding of a key, matching mutation
through HashMap::get_mut; a missing key leaves the map unchanged. -/
def modifyP : Mgr → String → (PluginInstance → PluginInstance) → Mgr
  | [], _, _ => []
  | (k, p) :: rest, n, g =>
    if k = n then (k, g p) :: rest else (k, p) :: modifyP rest n g

/-- PluginManager::start_plugin.  The spawn oracle f gives the
Command::spawn outcome for each plugin name. -/
def start_plugin (f : String → Bool) (now : Int) (m : Mgr) (name : String) :
    Mgr × Except PluginError Unit :=
  match lookupP m name with
  | none => (m, .error (.NotFound name))
  | some p =>
    (modifyP m name (fun _ => (p.start (f name) now).1), (p.start (f name) now).2)

/-- PluginManager::stop_plugin. -/
def stop_plugin (o : StopOutcome) (m : Mgr) (name : String) :
    Mgr × Except PluginError Unit :=
  match lookupP m name with
  | none => (m, .error (.NotFound name))
  | some p =>
    (modifyP m name (fun _ => (p.stop o).1), (p.stop o).2)

/-- Result of PluginManager::restart_plugin.  The panicked constructor
models the Rust unwrap of self.plugins.get_mut(name) evaluating to
None, which aborts the task. -/
inductive RestartResult
  | ok (m : Mgr)
  | err (e : PluginError) (m : Mgr)
  | panicked (m : Mgr)
deriving DecidableEq, Repr

/-- Packaging of a manager-state and result pair into a RestartResult. -/
def toRestartResult : Mgr × Except PluginError Unit → RestartResult
  | (m, .ok _) => .ok m
  | (m, .error e) => .err e m

/-- PluginManager::restart_plugin.  The stop error is only logged; the
instance is then fetched again with unwrap, its restart counter
incremented, and a normal start attempted. -/
def restart_plugin (f : String → Bool) (o : StopOutcome) (now : Int)
    (m : Mgr) (name : String) : RestartResult :=
  match lookupP (stop_plugin o m name).1 name with
  | none => .panicked (stop_plugin o m name).1
  | some p =>
    toRestartResult (start_plugin f now
      (modifyP (stop_plugin o m name).1 name
        (fun _ => { p with restart_count := p.restart_count + 1 })) name)

/-- Manager state carried by a RestartResult. -/
def restartState : RestartResult → Mgr
  | .ok m2 => m2
  | .err _ m2 => m2
  | .panicked m2 => m2

/-- State reached by PluginManager::restart_plugin regardless of how it
returned (for composing it into operation sequences). -/
def restart_applied (f : String → Bool) (o : StopOutcome) (now : Int)
    (m : Mgr) (name : String) : Mgr :=
  restartState (restart_plugin f o now m name)

/-- Record update of PluginManager::reset_plugin_circuit. -/
def resetFn (p : PluginInstance) : PluginInstance :=
  if p.status = .SafeMode then
    { p with circuit_state := CircuitState.Normal
             restart_count := 0
             last_restart_attempt := none
             status := .Stopped }
  else
    { p with circuit_state := CircuitState.Normal
             restart_count := 0
             last_restart_attempt := none }

/-- PluginManager::reset_plugin_circuit: breaker back to Normal,
restart counter zeroed, attempt stamp cleared, and a SafeMode plugin
returned to Stopped (the record update resetFn above). -/
def reset_plugin_circuit (m : Mgr) (name : String) :
    Mgr × Except PluginError Unit :=
  match lookupP m name with
  | none => (m, .error (.NotFound name))
  | some p => (modifyP m name (fun _ => resetFn p), .ok ())

/-- Rollback step of PluginManager::health_check_all: attempt the
rollback and, when it also fails, force SafeMode with an open circuit. -/
def rollback_step (spawnOk : Bool) (now : Int) (m : Mgr) (name : String) : Mgr :=
  match lookupP m name with
  | none => m
  | some p =>
    match (p.attempt_rollback spawnOk now).2 with
    | .ok _ => modifyP m name (fun _ => (p.attempt_rollback spawnOk now).1)
    | .error _ =>
      modifyP m name
        (fun _ => { (p.attempt_rollback spawnOk now).1 with
          status := .SafeMode, circuit_state := .CircuitOpen })

/-- Per-instance composition of PluginManager::force_plugin_rollback. -/
def forceRollbackFn (spawnOk : Bool) (o : StopOutcome) (now : Int)
    (p : PluginInstance) : PluginInstance × Except PluginError Unit :=
  PluginInstance.attempt_rollback spawnOk now
    { (if p.status = .Running then (p.stop o).1 else p) with
      circuit_state := CircuitState.Normal, restart_count := 0 }

/-- PluginManager::force_plugin_rollback: stop the plugin when Running,
reset the breaker and the restart counter, then attempt the rollback
(the per-instance composition forceRollbackFn above). -/
def force_plugin_rollback (spawnOk : Bool) (o : StopOutcome) (now : Int)
    (m : Mgr) (name : String) : Mgr × Except PluginError Unit :=
  match lookupP m name with
  | none => (m, .error (.NotFound name))
  | some p =>
    (modifyP m name (fun _ => (forceRollbackFn spawnOk o now p).1),
     (forceRollbackFn spawnOk o now p).2)

/-- Action phase of PluginManager::health_check_all for one plugin
whose child was found gone (p2 is its instance after the circuit
update, already written back into m2): either restart, attempt a
rollback (Degraded with at least 3 restarts and a recorded working
manifest), or leave the plugin alone (restart disabled, breaker denial,
or open circuit).  The Rust code gathers the actions during the scan
and performs them just after under the same lock; the per-binding
effect is identical. -/
def health_act (spawnOk : Bool) (now : Int) (p2 : PluginInstance)
    (m2 : Mgr) (name : String) : Mgr :=
  if !p2.manifest.restart_on_failure then m2
  else if !p2.can_restart now then m2
  else
    match p2.circuit_state with
    | .Normal => restart_applied (fun _ => spawnOk) (.exits true) now m2 name
    | .Degraded =>
      if 3 ≤ p2.restart_count ∧ p2.last_working_manifest.isSome then
        rollback_step spawnOk now m2 name
      else
        restart_applied (fun _ => spawnOk) (.exits true) now m2 name
    | .CircuitOpen => m2

/-- Per-plugin step of PluginManager::health_check_all, split as the
poll phase followed by the action phase health_act above. -/
def health_step (spawnOk : Bool) (o : HealthOutcome) (now : Int)
    (m : Mgr) (name : String) : Mgr :=
  match lookupP m name with
  | none => m
  | some p =>
    if (p.check_health o).2 then modifyP m name (fun _ => (p.check_health o).1)
    else
      health_act spawnOk now (((p.check_health o).1).update_circuit_state now)
        (modifyP m name (fun _ => ((p.check_health o).1).update_circuit_state now)) name

/-- PluginManager::mark_plugin_activity. -/
def mark_plugin_activity (now : Int) (m : Mgr) (name : String) : Mgr :=
  modifyP m name (PluginInstance.mark_activity now)

/-- One supervisor operation on the plugin map, with all environment
outcomes (spawn success, child exit behavior, clock) carried as data. -/
inductive MgrOp
  | startOp (spawnOk : Bool) (now : Int) (name : String)
  | stopOp (o : StopOutcome) (name : String)
  | restartOp (spawnOk : Bool) (o : StopOutcome) (now : Int) (name : String)
  | healthOp (spawnOk : Bool) (o : HealthOutcome) (now : Int) (name : String)
  | resetOp (name : String)
  | rollbackOp (spawnOk : Bool) (o : StopOutcome) (now : Int) (name : String)
  | activityOp (now : Int) (name : String)
deriving DecidableEq, Repr

/-- Effect of one supervisor operation on the plugin map. -/
def applyOp (m : Mgr) : MgrOp → Mgr
  | .startOp f now n => (start_plugin (fun _ => f) now m n).1
  | .stopOp o n => (stop_plugin o m n).1
  | .restartOp f o now n => restart_applied (fun _ => f) o now m n
  | .healthOp f o now n => health_step f o now m n
  | .resetOp n => (reset_plugin_circuit m n).1
  | .rollbackOp f o now n => (force_plugin_rollback f o now m n).1
  | .activityOp now n => mark_plugin_activity now m n

/-- The two operator actions that deliberately reset the restart
counter to zero. -/
def MgrOp.isCounterReset : MgrOp → Bool
  | .resetOp _ => true
  | .rollbackOp _ _ _ _ => true
  | _ => false

/-- Restart counter of a named plugin, zero when absent. -/
def restartCountOf (m : Mgr) (n : String) : Nat :=
  match lookupP m n with
  | some p => p.restart_count
  | none => 0

/-- True exactly for the Running status. -/
def PluginStatus.isRunning : PluginStatus → Bool
  | .Running => true
  | _ => false

/-- True for the statuses Running and Starting, the guard of
PluginInstance::start. -/
def PluginStatus.isActive : PluginStatus → Bool
  | .Running => true
  | .Starting => true
  | _ => false

/-- Whether the named plugin currently has status Running. -/
def runningIn (m : Mgr) (n : String) : Bool :=
  match lookupP m n with
  | some p => p.status.isRunning
  | none => false

/-- Whether the named plugin currently has status Running or Starting. -/
def activeIn (m : Mgr) (n : String) : Bool :=
  match lookupP m n with
  | some p => p.status.isActive
  | none => false

/-- Declared dependencies of a named plugin, empty when absent. -/
def dependsOf (m : Mgr) (n : String) : List String :=
  match lookupP m n with
  | some p => p.manifest.depends_on
  | none => []

/-- PluginManager::can_start_plugin: the plugin exists and every
declared dependency currently has status Running. -/
def can_start_plugin (m : Mgr) (n : String) : Bool :=
  match lookupP m n with
  | none => false
  | some p =>
    p.manifest.depends_on.all (fun dep =>
      match lookupP m dep with
      | some dp => dp.status.isRunning
      | none => false)

/-- Sort key used by start_plugins_ordered: the start priority of the
named plugin, 999 when the name is unknown. -/
def prioKey (m : Mgr) (n : String) : Int :=
  match lookupP m n with
  | some p => p.manifest.start_priority
  | none => 999

/-- Ascending priority order on plugin names within a fixed map. -/
def prioLe (m : Mgr) (a b : String) : Prop := prioKey m a ≤ prioKey m b

instance (m : Mgr) : DecidableRel (prioLe m) := fun a b =>
  inferInstanceAs (Decidable (prioKey m a ≤ prioKey m b))

instance (m : Mgr) : IsTotal String (prioLe m) :=
  ⟨fun a b => Int.le_total (prioKey m a) (prioKey m b)⟩

instance (m : Mgr) : IsTrans String (prioLe m) :=
  ⟨fun _ _ _ hab hbc => le_trans hab hbc⟩

/-- Stable sort of plugin names ascending by start priority, modelling
remaining.sort_by_key in start_plugins_ordered (Vec::sort_by_key is a
stable sort, as is insertion sort). -/
def sortByPrio (m : Mgr) (l : List String) : List String :=
  List.insertionSort (prioLe m) l

/-- Executable check that a list of names is in ascending start
priority order for a given map. -/
def sortedByPrio (m : Mgr) : List String → Bool
  | [] => true
  | [_] => true
  | a :: b :: l => decide (prioKey m a ≤ prioKey m b) && sortedByPrio m (b :: l)

/-- Status marking used by start_plugins_ordered for a plugin whose
dependencies are not yet satisfied. -/
def waitFn (p : PluginInstance) : PluginInstance :=
  { p with status := PluginStatus.WaitingDependencies }

/-- Status marking used by start_plugins_ordered after a failed start
(the Rust message interpolates the error text). -/
def failFn (p : PluginInstance) : PluginInstance :=
  { p with status := PluginStatus.Failed "Start failed" }

/-- One inner pass of start_plugins_ordered over the already sorted
remaining names: each startable name is started (a failed spawn marks
it Failed; both cases drop it from remaining, and only a successful
start counts as progress), every other name is marked
WaitingDependencies and kept.  Returns the updated map, the names kept
for the next iteration, the names started this pass in order, and the
progress flag. -/
def scanPass (f : String → Bool) (now : Int) :
    Mgr → List String → Mgr × List String × List String × Bool
  | m, [] => (m, [], [], false)
  | m, n :: rest =>
    if can_start_plugin m n then
      let s := start_plugin f now m n
      match s.2 with
      | .ok _ =>
        let t := scanPass f now s.1 rest
        (t.1, t.2.1, n :: t.2.2.1, true)
      | .error _ =>
        let m2 := modifyP s.1 n failFn
        let t := scanPass f now m2 rest
        (t.1, t.2.1, t.2.2.1, t.2.2.2)
    else
      let m1 := modifyP m n waitFn
      let t := scanPass f now m1 rest
      (t.1, n :: t.2.1, t.2.2.1, t.2.2.2)

/-- Outer loop of start_plugins_ordered, fuelled by the iteration cap.
Each iteration sorts the remaining names by priority, runs one pass,
and fails with the unresolved names and their dependency lists when the
pass made no progress; exhausting the cap with names left fails too.
Started names are returned grouped by pass. -/
def start_plugins_loop (f : String → Bool) (now : Int) :
    Nat → Mgr → List String → Except PluginError (Mgr × List (List String))
  | 0, m, remaining =>
    if remaining.isEmpty then .ok (m, [])
    else .error (.MaxIterationsReached remaining)
  | fuel + 1, m, remaining =>
    if remaining.isEmpty then .ok (m, [])
    else
      let sorted := sortByPrio m remaining
      let t := scanPass f now m sorted
      if t.2.2.2 then
        match start_plugins_loop f now fuel t.1 t.2.1 with
        | .ok r => .ok (r.1, t.2.2.1 :: r.2)
        | .error e => .error e
      else
        .error (.CircularDependencies
          (t.2.1.map (fun n => (n, dependsOf t.1 n))))

/-- PluginManager::start_plugins_ordered with the iteration cap
remaining.len() + 5, returning the started names in start order. -/
def start_plugins_ordered (f : String → Bool) (now : Int)
    (m : Mgr) (names : List String) : Except PluginError (Mgr × List String) :=
  match start_plugins_loop f now (names.length + 5) m names with
  | .ok r => .ok (r.1, r.2.flatten)
  | .error e => .error e

/-- Dependency-order soundness of a start sequence: walking the list of
started names in order, every declared dependency of each name was
already Running when the batch began or was itself started earlier in
the sequence.  The accumulator pre holds the names started so far
together with the names running at batch start. -/
def depOrdered (m0 : Mgr) : List String → List String → Bool
  | _, [] => true
  | pre, n :: rest =>
    (dependsOf m0 n).all (fun dep => runningIn m0 dep || decide (dep ∈ pre)) &&
      depOrdered m0 (pre ++ [n]) rest

/-- Invariant claimed by the spec for every plugin instance: the child
process handle is present exactly when the status is Starting, Running
or Stopping. -/
def procStatusInv (p : PluginInstance) : Prop :=
  p.process.isSome = true ↔
    (p.status = .Starting ∨ p.status = .Running ∨ p.status = .Stopping)

/-- Strengthened quiescent form of the process invariant that actually
holds between supervisor operations: the handle is present exactly when
the status is Running, and the transient statuses Starting and Stopping
never persist past an operation. -/
def quiescentInv (p : PluginInstance) : Prop :=
  (p.process.isSome = true ↔ p.status = .Running) ∧
    p.status ≠ .Starting ∧ p.status ≠ .Stopping

/-- Executable form of the process-handle invariant of the spec. -/
def procStatusInvB (p : PluginInstance) : Bool :=
  p.process.isSome ==
    (p.status == PluginStatus.Starting || p.status == PluginStatus.Running ||
      p.status == PluginStatus.Stopping)

/-- Executable form of the quiescent invariant. -/
def quiescentB (p : PluginInstance) : Bool :=
  (p.process.isSome == p.status.isRunning) &&
    !(p.status == PluginStatus.Starting) && !(p.status == PluginStatus.Stopping)

/-- All instances of the map satisfy the quiescent invariant. -/
def mgrQuiescentB (m : Mgr) : Bool := m.all (fun kv => quiescentB kv.2)

/-- Process-handle invariant of the named plugin, vacuously true when
the name is unknown. -/
def procInvOf (m : Mgr) (n : String) : Bool :=
  match lookupP m n with
  | some p => procStatusInvB p
  | none => true

/-- Manifest of a named plugin, when present. -/
def manifestOf (m : Mgr) (n : String) : Option PluginManifest :=
  (lookupP m n).map PluginInstance.manifest

/-! Agent registry (agents.rs).  Timestamps are integers in seconds;
floating-point telemetry values are carried as integers since no claim
depends on their arithmetic; JSON values are carried as strings. -/

/-- One network interface of an agent (agents.rs, AgentInterface). -/
structure AgentInterface where
  name : String
  mac : String
  ip : String
  interface_type : String
deriving DecidableEq, Repr

/-- Network identity of an agent (agents.rs, AgentNetwork). -/
structure AgentNetwork where
  primary_mac : String
  interfaces : List AgentInterface
deriving DecidableEq, Repr

/-- CPU roll-up of a heartbeat (agents.rs, AgentCpuMetrics). -/
structure AgentCpuMetrics where
  percent : Int
  core_count : Option Nat
deriving DecidableEq, Repr

/-- Memory roll-up of a heartbeat (agents.rs, AgentMemoryMetrics). -/
structure AgentMemoryMetrics where
  total_mb : Nat
  used_mb : Nat
  percent_used : Int
deriving DecidableEq, Repr

/-- System telemetry of a heartbeat (agents.rs, AgentSystemMetrics;
disk, network and temperature roll-ups elided as they never influence
registry logic). -/
structure AgentSystemMetrics where
  uptime_seconds : Nat
  cpu : AgentCpuMetrics
  memory : AgentMemoryMetrics
deriving DecidableEq, Repr

/-- Process roll-up of a heartbeat (agents.rs, AgentProcesses). -/
structure AgentProcesses where
  total_count : Nat
  running_count : Nat
deriving DecidableEq, Repr

/-- Service entry of a heartbeat (agents.rs, AgentService). -/
structure AgentService where
  name : String
  status : String
  enabled : Option Bool
deriving DecidableEq, Repr

/-- Live status block of an agent (agents.rs, AgentStatus). -/
structure AgentStatus where
  status : String
  last_heartbeat : Option Int
  system : Option AgentSystemMetrics
  processes : Option AgentProcesses
  services : Option (List AgentService)
deriving DecidableEq, Repr

/-- Registered agent record (agents.rs, Agent). -/
structure Agent where
  agent_id : String
  hostname : String
  os : String
  architecture : String
  capabilities : List String
  network : AgentNetwork
  version : Option String
  status : AgentStatus
  last_seen : Int
  registration_time : Int
deriving DecidableEq, Repr

/-- Inbound registration message (agents.rs,
AgentRegistrationMessage). -/
structure AgentRegistrationMessage where
  agent_id : String
  hostname : String
  os : String
  architecture : String
  capabilities : List String
  network : AgentNetwork
  version : Option String
  timestamp : String
deriving DecidableEq, Repr

/-- Agent map of the registry (HashMap agent id to record, modelled as
an association list whose keys occur at most once). -/
abbrev AgentsMap := List (String × Agent)

/-- First-binding lookup, matching HashMap::get. -/
def lookupA : AgentsMap → String → Option Agent
  | [], _ => none
  | (k, a) :: rest, n => if k = n then some a else lookupA rest n

/-- HashMap::insert: replace the binding when the key exists, append
otherwise. -/
def insertA : AgentsMap → String → Agent → AgentsMap
  | [], k, v => [(k, v)]
  | (k1, v1) :: rest, k, v =>
    if k1 = k then (k, v) :: rest else (k1, v1) :: insertA rest k v

/-- In-place update of the first binding of a key, matching mutation
through HashMap::get_mut; a missing key leaves the map unchanged. -/
def modifyA : AgentsMap → String → (Agent → Agent) → AgentsMap
  | [], _, _ => []
  | (k, a) :: rest, n, g =>
    if k = n then (k, g a) :: rest else (k, a) :: modifyA rest n g

/-- Agent record built by AgentRegistry::handle_agent_registration: all
identity fields come from the message, the status block is online with
a fresh heartbeat stamp and no telemetry, and both last_seen and
registration_time are stamped with the current time. -/
def registeredAgent (now : Int) (msg : AgentRegistrationMessage) : Agent :=
  { agent_id := msg.agent_id
    hostname := msg.hostname
    os := msg.os
    architecture := msg.architecture
    capabilities := msg.capabilities
    network := msg.network
    version := msg.version
    status := { status := "online"
                last_heartbeat := some now
                system := none
                processes := none
                services := none }
    last_seen := now
    registration_time := now }

/-- AgentRegistry::handle_agent_registration: unconditionally insert
the freshly built record under the message id (the snapshot write that
follows is not part of the map transition). -/
def handle_agent_registration (now : Int) (m : AgentsMap)
    (msg : AgentRegistrationMessage) : AgentsMap :=
  insertA m msg.agent_id (registeredAgent now msg)

/-- Record update performed by AgentRegistry::mark_agent_offline: only
the status string changes. -/
def offlineAgent (a : Agent) : Agent :=
  { a with status := { a.status with status := "offline" } }

/-- AgentRegistry::mark_agent_offline. -/
def mark_agent_offline (m : AgentsMap) (id : String) : AgentsMap :=
  modifyA m id offlineAgent

/-- Staleness test of the monitoring sweep: currently online and last
seen strictly before the threshold. -/
def isStale (threshold : Int) (a : Agent) : Bool :=
  a.status.status = "online" ∧ a.last_seen < threshold

/-- One pass of the monitoring loop in
AgentRegistry::start_agent_monitoring: collect the agents that are
online and last seen more than timeout_minutes ago, mark each of them
offline, then call save_agents.  The returned flag records whether the
snapshot was written; the Rust loop calls save_agents unconditionally
on every pass. -/
def sweep_pass (now : Int) (timeout_minutes : Int) (m : AgentsMap) :
    AgentsMap × List String × Bool :=
  let threshold := now - timeout_minutes * 60
  let toMark := (m.filter (fun kv => isStale threshold kv.2)).map Prod.fst
  (toMark.foldl (fun acc id => mark_agent_offline acc id) m, toMark, true)

/-! Command dispatch (agents.rs send_command, http.rs agent command
endpoints).  Uuid::new_v4 is abstracted as an injective fresh-id supply
indexed by a per-process counter; only freshness of the generated
strings matters. -/

/-- Outbound command payload (agents.rs, AgentCommand); the JSON
parameters value is carried as a string. -/
structure AgentCommand where
  command_id : String
  agent_id : String
  command_type : String
  parameters : Option String
  timeout_seconds : Option Nat
  timestamp : String
deriving DecidableEq, Repr

/-- Fresh command id for the k-th generated command of the process. -/
def freshCommandId (k : Nat) : String :=
  String.mk (List.replicate (k + 1) 'u')

/-- Dispatcher state: the fresh-id counter and the bus messages
published so far, in order, as topic and payload pairs. -/
structure DispatchState where
  counter : Nat
  published : List (String × AgentCommand)
deriving DecidableEq, Repr

/-- AgentRegistry::send_command: build the command with a fresh id, a
30 second timeout and the formatted clock, publish exactly one message
on the fixed topic symbion/agents/command@v1, and return the command
id.  The MQTT client is assumed configured (the kernel wires it at
startup). -/
def agents_send_command (st : DispatchState) (agent_id : String)
    (command_type : String) (parameters : Option String) (nowStr : String) :
    DispatchState × String :=
  let command_id := freshCommandId st.counter
  let cmd : AgentCommand :=
    { command_id := command_id
      agent_id := agent_id
      command_type := command_type
      parameters := parameters
      timeout_seconds := some 30
      timestamp := nowStr }
  ({ counter := st.counter + 1
     published := st.published ++ [("symbion/agents/command@v1", cmd)] },
   command_id)

/-- Body of the 200 response of POST agents id shutdown (http.rs,
agent_shutdown_endpoint). -/
structure ShutdownResponse where
  success : Bool
  command_id : String
  message : String
deriving DecidableEq, Repr

/-- http.rs agent_shutdown_endpoint: dispatch a shutdown command for
the path id and answer with the command id. -/
def agent_shutdown_endpoint (st : DispatchState) (id : String)
    (nowStr : String) : DispatchState × ShutdownResponse :=
  let r := agents_send_command st id "shutdown" none nowStr
  (r.1, { success := true, command_id := r.2, message := "Shutdown command sent" })

/-- A sequence of shutdown endpoint calls, returning the final state
and the command ids handed back to the callers. -/
def runShutdowns : DispatchState → List (String × String) →
    DispatchState × List String
  | st, [] => (st, [])
  | st, (id, ts) :: rest =>
    let r := agent_shutdown_endpoint st id ts
    let t := runShutdowns r.1 rest
    (t.1, r.2.command_id :: t.2)

/-! Request and response bridge (notes_bridge.rs).  The pending map
holds one oneshot sender per outstanding request id; here its key set
is the pending list and each fulfilled send is recorded, so that
at-most-once delivery is the statement that an id is fulfilled at most
once. -/

/-- Plugin response on the response topic (notes_bridge.rs,
NoteResponse); the JSON data value is carried as a string. -/
inductive NoteResponse
  | success (request_id : String) (action : String) (data : String)
  | failed (request_id : String) (action : String) (error_text : String)
deriving DecidableEq, Repr

/-- Request id extracted from a response, as in
NotesBridge::handle_response. -/
def NoteResponse.rid : NoteResponse → String
  | .success request_id _ _ => request_id
  | .failed request_id _ _ => request_id

/-- HashMap::insert on the key set of the pending map. -/
def insertId (l : List String) (i : String) : List String :=
  if i ∈ l then l else i :: l

/-- Events touching the pending map of the bridge: insert models the
insertion in send_command just before the publish, respond models
NotesBridge::handle_response for a response carrying the id, and expire
models the removal in the timeout and closed-channel arms of
send_command. -/
inductive BridgeEvent
  | insert (id : String)
  | respond (id : String)
  | expire (id : String)
deriving DecidableEq, Repr

/-- Bridge state: the key set of the pending map and the multiset of
ids whose reply slot has been fulfilled (one entry per oneshot send
performed by handle_response). -/
structure BridgeState where
  pending : List String
  fulfilled : List String
deriving DecidableEq, Repr

/-- Fresh bridge (NotesBridge::new). -/
def bridgeInit : BridgeState := { pending := [], fulfilled := [] }

/-- One event on the pending map.  handle_response removes the entry
first and fulfills the slot only when the removal found one; an unknown
id is logged and discarded.  The timeout arm only removes. -/
def bridgeStep (s : BridgeState) : BridgeEvent → BridgeState
  | .insert i => { s with pending := insertId s.pending i }
  | .respond i =>
    if i ∈ s.pending then
      { pending := s.pending.erase i, fulfilled := i :: s.fulfilled }
    else s
  | .expire i => { s with pending := s.pending.erase i }

/-- Run a trace of bridge events. -/
def bridgeRun (tr : List BridgeEvent) (s : BridgeState) : BridgeState :=
  tr.foldl bridgeStep s

/-- Number of insert events for a given id in a trace. -/
def insCount (id : String) (tr : List BridgeEvent) : Nat :=
  tr.countP (fun e => e = BridgeEvent.insert id)

/-- The bridge await timeout: Duration::from_secs(5), in milliseconds
here so that the boundary behavior is expressible. -/
def BRIDGE_TIMEOUT_MS : Nat := 5000

/-- One whole exchange of NotesBridge::send_command for a fresh request
id, as a function of the environment: whether the MQTT publish is
accepted, and at which millisecond (if ever) the matching response
arrives.  Returns the pending key set after the exchange and either the
response or the HTTP status code produced (503 when the bus rejects the
publish, 504 on timeout).  The serde serialization failure arm (500) is
unreachable for these payloads and the closed-channel arm cannot fire
while send_command itself holds the receiver, so neither is modelled. -/
def bridge_send_command (pending : List String) (rid : String)
    (publishOk : Bool) (reply : Option (Nat × NoteResponse)) :
    List String × Except Nat NoteResponse :=
  let p1 := insertId pending rid
  if !publishOk then
    (p1, .error 503)
  else
    match reply with
    | some (t, resp) =>
      if t < BRIDGE_TIMEOUT_MS then (p1.erase rid, .ok resp)
      else (p1.erase rid, .error 504)
    | none => (p1.erase rid, .error 504)

/-! Concrete sample data used to evaluate the theorems on explicit
inputs. -/

/-- Sample manifest for a named plugin with given dependencies and
start priority. -/
def exManifest (n : String) (deps : List String) (prio : Int) : PluginManifest :=
  { name := n
    version := "1.0.0"
    binary := "./bin"
    contracts := []
    auto_start := true
    restart_on_failure := true
    startup_timeout_seconds := 30
    shutdown_timeout_seconds := 10
    depends_on := deps
    start_priority := prio }

/-- Freshly discovered sample instance. -/
def exInstance (n : String) (deps : List String) (prio : Int) : PluginInstance :=
  PluginInstance.mkNew (exManifest n deps prio) "instance-0"

/-- Two-plugin map: beta depends on alpha. -/
def exMgr2 : Mgr :=
  [("alpha", exInstance "alpha" [] 10), ("beta", exInstance "beta" ["alpha"] 50)]

/-- Map whose single plugin already has five restarts on record. -/
def exMgrCount5 : Mgr :=
  [("p", { exInstance "p" [] 100 with restart_count := 5 })]

/-- Two-plugin map with a dependency cycle. -/
def exMgrCycle : Mgr :=
  [("c1", exInstance "c1" ["c2"] 10), ("c2", exInstance "c2" ["c1"] 20)]

/-- Sample agent network block. -/
def exNet : AgentNetwork :=
  { primary_mac := "aa:bb:cc:dd:ee:ff", interfaces := [] }

/-- Sample registration message. -/
def exRegMsg : AgentRegistrationMessage :=
  { agent_id := "aabbccddeeff"
    hostname := "h1"
    os := "linux"
    architecture := "x86_64"
    capabilities := ["power_management"]
    network := exNet
    version := some "1.0.0"
    timestamp := "t0" }

/-- Registry holding one agent that registered at time 1000. -/
def exAgents : AgentsMap := [("aabbccddeeff", registeredAgent 1000 exRegMsg)]

/-- Fresh dispatcher state. -/
def exDispatch : DispatchState := { counter := 0, published := [] }

/-! Association-map lemmas. -/

theorem lookupP_modifyP (m : Mgr) (n q : String) (g : PluginInstance → PluginInstance) :
    lookupP (modifyP m n g) q = if q = n then (lookupP m n).map g else lookupP m q := by
  induction m with
  | nil => simp only [modifyP, lookupP]; split <;> rfl
  | cons kv rest ih =>
    obtain ⟨k, p⟩ := kv
    by_cases hqn : q = n
    · subst hqn
      by_cases hkq : k = q
      · subst hkq; simp [modifyP, lookupP]
      · simp [modifyP, lookupP, hkq, ih]
    · by_cases hkn : k = n
      · have hkq : ¬ k = q := fun h => hqn (h.symm.trans hkn)
        have hnq : ¬ n = q := fun h => hqn h.symm
        simp [modifyP, lookupP, hkq, hqn, hkn, hnq]
      · by_cases hkq : k = q
        · subst hkq; simp [modifyP, lookupP, hkn, hqn]
        · simp [modifyP, lookupP, hkn, hkq, hqn, ih]

theorem lookupA_modifyA (m : AgentsMap) (n q : String) (g : Agent → Agent) :
    lookupA (modifyA m n g) q = if q = n then (lookupA m n).map g else lookupA m q := by
  induction m with
  | nil => simp only [modifyA, lookupA]; split <;> rfl
  | cons kv rest ih =>
    obtain ⟨k, p⟩ := kv
    by_cases hqn : q = n
    · subst hqn
      by_cases hkq : k = q
      · subst hkq; simp [modifyA, lookupA]
      · simp [modifyA, lookupA, hkq, ih]
    · by_cases hkn : k = n
      · have hkq : ¬ k = q := fun h => hqn (h.symm.trans hkn)
        have hnq : ¬ n = q := fun h => hqn h.symm
        simp [modifyA, lookupA, hkq, hqn, hkn, hnq]
      · by_cases hkq : k = q
        · subst hkq; simp [modifyA, lookupA, hkn, hqn]
        · simp [modifyA, lookupA, hkn, hkq, hqn, ih]

theorem lookupA_insertA (m : AgentsMap) (k q : String) (v : Agent) :
    lookupA (insertA m k v) q = if q = k then some v else lookupA m q := by
  induction m with
  | nil =>
    by_cases hqk : q = k
    · subst hqk; simp [insertA, lookupA]
    · have : ¬ k = q := fun h => hqk h.symm
      simp [insertA, lookupA, hqk, this]
  | cons kv rest ih =>
    obtain ⟨k1, v1⟩ := kv
    by_cases hqk : q = k
    · subst hqk
      by_cases h1 : k1 = q
      · subst h1; simp [insertA, lookupA]
      · simp [insertA, lookupA, h1, ih]
    · by_cases h1 : k1 = k
      · have h3 : ¬ k1 = q := fun h => hqk (h.symm.trans h1)
        have h4 : ¬ k = q := fun h => hqk h.symm
        simp [insertA, lookupA, h1, h3, h4, hqk]
      · by_cases h2 : k1 = q
        · subst h2; simp [insertA, lookupA, h1]
        · simp [insertA, lookupA, h1, h2, hqk, ih]

theorem insertA_insertA (m : AgentsMap) (k : String) (v w : Agent) :
    insertA (insertA m k v) k w = insertA m k w := by
  induction m with
  | nil => simp [insertA]
  | cons kv rest ih =>
    obtain ⟨k1, v1⟩ := kv
    by_cases hk : k1 = k <;> simp_all [insertA]

/-! Claim C1: circuit-breaker thresholds and restart gating. -/

/-- Claim C1: after a restart attempt (an update_circuit_state call at
time now), the breaker is Normal exactly when restart_count is at most
2, Degraded exactly on 3 to 5, and CircuitOpen exactly from 6 on, the
status flipping to SafeMode when CircuitOpen is reached; and a later
restart is permitted always in Normal, exactly when 60 seconds have
elapsed since the attempt in Degraded, and exactly when 300 seconds
have elapsed in CircuitOpen. -/
theorem C1_circuit_breaker_gating (p : PluginInstance) (now later : Int) :
    ((p.update_circuit_state now).circuit_state = CircuitState.Normal ↔
      p.restart_count ≤ 2) ∧
    ((p.update_circuit_state now).circuit_state = CircuitState.Degraded ↔
      (3 ≤ p.restart_count ∧ p.restart_count ≤ 5)) ∧
    ((p.update_circuit_state now).circuit_state = CircuitState.CircuitOpen ↔
      6 ≤ p.restart_count) ∧
    ((p.update_circuit_state now).circuit_state = CircuitState.CircuitOpen →
      (p.update_circuit_state now).status = PluginStatus.SafeMode) ∧
    ((p.update_circuit_state now).can_restart later = true ↔
      ((p.update_circuit_state now).circuit_state = CircuitState.Normal ∨
       ((p.update_circuit_state now).circuit_state = CircuitState.Degraded ∧
         60 ≤ later - now) ∨
       ((p.update_circuit_state now).circuit_state = CircuitState.CircuitOpen ∧
         300 ≤ later - now))) := by
  simp only [PluginInstance.update_circuit_state, PluginInstance.can_restart]
  split_ifs with h1 h2 <;> simp_all <;> omega

/-! Claim C10: restarting an unknown plugin name. -/

/-- Claim C10 (divergence evidence): restart_plugin with an unknown
name swallows the NotFound error of the stop, then reaches the unwrap
of the missing map entry and panics, instead of returning NotFound and
leaving the state unchanged; the operation is reachable from the public
restart route with an arbitrary path name. -/
theorem C10_restart_unknown_panics :
    restart_plugin (fun _ => true) StopOutcome.timeoutThenKill 0 ([] : Mgr) "ghost" =
      RestartResult.panicked [] ∧
    (stop_plugin StopOutcome.timeoutThenKill ([] : Mgr) "ghost").2 =
      Except.error (PluginError.NotFound "ghost") := by
  constructor <;> rfl

/-! Claim C7: monotonicity of the restart counter. -/

/-- Claim C7 counterexample: reset_plugin_circuit is a supervisor
operation (cited by the claim itself) after which restart_count is
strictly smaller, so restart_count is not non-decreasing across all
supervisor operations. -/
theorem C7_counterexample :
    restartCountOf (applyOp exMgrCount5 (MgrOp.resetOp "p")) "p" <
      restartCountOf exMgrCount5 "p" := by decide

theorem rc_update_circuit (now : Int) (p : PluginInstance) :
    (p.update_circuit_state now).restart_count = p.restart_count := by
  simp only [PluginInstance.update_circuit_state]
  split_ifs <;> rfl

theorem rc_start (f : Bool) (now : Int) (p : PluginInstance) :
    ((p.start f now).1).restart_count = p.restart_count := by
  simp only [PluginInstance.start]
  split_ifs <;> simp [rc_update_circuit]

theorem rc_stop (o : StopOutcome) (p : PluginInstance) :
    ((p.stop o).1).restart_count = p.restart_count := by
  cases hp : p.process <;> cases o <;> simp [PluginInstance.stop, hp]

theorem rc_check (o : HealthOutcome) (p : PluginInstance) :
    ((p.check_health o).1).restart_count = p.restart_count := by
  cases hp : p.process <;> cases o <;>
    simp only [PluginInstance.check_health, hp] <;>
    first
    | rfl
    | (rename_i c; cases c <;> rfl)

theorem rc_rollback_finish (cur : PluginManifest)
    (r : PluginInstance × Except PluginError Unit) :
    ((rollback_finish cur r).1).restart_count = r.1.restart_count := by
  obtain ⟨p1, r2⟩ := r
  cases r2 <;> rfl

theorem rc_attempt_rollback (f : Bool) (now : Int) (p : PluginInstance) :
    ((p.attempt_rollback f now).1).restart_count = p.restart_count := by
  simp only [PluginInstance.attempt_rollback]
  cases hw : p.last_working_manifest
  · rfl
  · rename_i wm
    rw [rc_rollback_finish]
    exact rc_start f now _

theorem restartCountOf_modifyP (m : Mgr) (n q : String)
    (g : PluginInstance → PluginInstance) :
    restartCountOf (modifyP m n g) q =
      if q = n then
        (match lookupP m n with
         | some p => (g p).restart_count
         | none => 0)
      else restartCountOf m q := by
  unfold restartCountOf
  rw [lookupP_modifyP]
  by_cases h : q = n <;> simp [h] <;> cases lookupP m n <;> simp

theorem rc_start_plugin (f : String → Bool) (now : Int) (m : Mgr) (name q : String) :
    restartCountOf (start_plugin f now m name).1 q = restartCountOf m q := by
  unfold start_plugin
  cases h : lookupP m name
  · rfl
  · rename_i p
    simp only
    rw [restartCountOf_modifyP]
    by_cases hq : q = name <;> simp [hq, h, rc_start, restartCountOf]

theorem rc_stop_plugin (o : StopOutcome) (m : Mgr) (name q : String) :
    restartCountOf (stop_plugin o m name).1 q = restartCountOf m q := by
  unfold stop_plugin
  cases h : lookupP m name
  · rfl
  · rename_i p
    simp only
    rw [restartCountOf_modifyP]
    by_cases hq : q = name <;> simp [hq, h, rc_stop, restartCountOf]

theorem lookupP_stop_plugin (o : StopOutcome) (m : Mgr) (name : String)
    (p : PluginInstance) (h : lookupP m name = some p) :
    lookupP (stop_plugin o m name).1 name = some (p.stop o).1 := by
  unfold stop_plugin
  rw [h]
  simp only
  rw [lookupP_modifyP]
  simp [h]

theorem restartState_toRestartResult (r : Mgr × Except PluginError Unit) :
    restartState (toRestartResult r) = r.1 := by
  obtain ⟨m2, r2⟩ := r
  cases r2 <;> rfl

theorem rc_restart_applied (f : String → Bool) (o : StopOutcome) (now : Int)
    (m : Mgr) (name q : String) :
    restartCountOf (restart_applied f o now m name) q =
      if q = name ∧ (lookupP m name).isSome then restartCountOf m q + 1
      else restartCountOf m q := by
  unfold restart_applied restart_plugin
  cases h : lookupP m name
  · have h1 : (stop_plugin o m name).1 = m := by unfold stop_plugin; rw [h]
    rw [h1, h]
    simp [restartState]
  · rename_i p
    have h1 := lookupP_stop_plugin o m name p h
    rw [h1]
    simp only
    rw [restartState_toRestartResult]
    rw [rc_start_plugin]
    rw [restartCountOf_modifyP, h1]
    by_cases hq : q = name
    · subst hq
      simp [h, rc_stop, restartCountOf]
    · rw [if_neg hq, if_neg (by simp [hq])]
      exact rc_stop_plugin o m name q

theorem rc_rollback_step (f : Bool) (now : Int) (m : Mgr) (name q : String) :
    restartCountOf (rollback_step f now m name) q = restartCountOf m q := by
  unfold rollback_step
  cases h : lookupP m name
  · rfl
  · rename_i p
    simp only
    cases hr : (p.attempt_rollback f now).2 <;>
      · rw [restartCountOf_modifyP]
        by_cases hq : q = name <;>
          simp [hq, h, rc_attempt_rollback, restartCountOf]

theorem rc_reset_circuit (m : Mgr) (name q : String) :
    restartCountOf (reset_plugin_circuit m name).1 q =
      if q = name ∧ (lookupP m name).isSome then 0 else restartCountOf m q := by
  unfold reset_plugin_circuit
  cases h : lookupP m name
  · simp [h]
  · rename_i p
    simp only
    rw [restartCountOf_modifyP]
    by_cases hq : q = name <;> simp [hq, h, resetFn] <;> split_ifs <;> rfl

theorem rc_force_rollback (f : Bool) (o : StopOutcome) (now : Int)
    (m : Mgr) (name q : String) :
    restartCountOf (force_plugin_rollback f o now m name).1 q =
      if q = name ∧ (lookupP m name).isSome then 0 else restartCountOf m q := by
  unfold force_plugin_rollback
  cases h : lookupP m name
  · simp [h]
  · rename_i p
    simp only
    rw [restartCountOf_modifyP]
    by_cases hq : q = name <;>
      simp [hq, h, forceRollbackFn, rc_attempt_rollback]

theorem rc_mark_activity (now : Int) (m : Mgr) (name q : String) :
    restartCountOf (mark_plugin_activity now m name) q = restartCountOf m q := by
  unfold mark_plugin_activity
  rw [restartCountOf_modifyP]
  by_cases hq : q = name <;>
    simp [hq, PluginInstance.mark_activity, restartCountOf] <;>
    cases lookupP m name <;> simp

theorem rc_health_act_mono (f : Bool) (now : Int) (p2 : PluginInstance)
    (m2 : Mgr) (name q : String) :
    restartCountOf m2 q ≤ restartCountOf (health_act f now p2 m2 name) q := by
  unfold health_act
  split_ifs <;> try exact le_refl _
  all_goals
    cases p2.circuit_state <;> simp only [] <;>
      first
        | exact le_refl _
        | (rw [rc_rollback_step])
        | (rw [rc_restart_applied]; split_ifs <;> omega)

theorem rc_health_step_mono (f : Bool) (o : HealthOutcome) (now : Int)
    (m : Mgr) (name q : String) :
    restartCountOf m q ≤ restartCountOf (health_step f o now m name) q := by
  unfold health_step
  cases h : lookupP m name
  · exact le_refl _
  · rename_i p
    simp only
    have hm2 : restartCountOf
        (modifyP m name (fun _ => ((p.check_health o).1).update_circuit_state now)) q =
        restartCountOf m q := by
      rw [restartCountOf_modifyP]
      by_cases hq2 : q = name <;>
        simp [hq2, h, rc_update_circuit, rc_check, restartCountOf]
    by_cases hc : (p.check_health o).2
    · simp only [hc, if_true]
      rw [restartCountOf_modifyP]
      by_cases hq : q = name <;> simp [hq, h, rc_check, restartCountOf]
    · simp only [hc, Bool.false_eq_true, if_false]
      calc restartCountOf m q
          = restartCountOf
              (modifyP m name (fun _ => ((p.check_health o).1).update_circuit_state now)) q :=
            hm2.symm
        _ ≤ _ := rc_health_act_mono f now _ _ name q

/-- Claim C7 (amended): restart_count never decreases under any
supervisor operation other than the two explicit operator resets
(reset_plugin_circuit and force_plugin_rollback, which zero it), and
every restart attempt via restart_plugin increments the counter exactly
once. -/
theorem C7_restart_count (m : Mgr) (n : String) (op : MgrOp)
    (f : String → Bool) (o : StopOutcome) (now : Int)
    (hop : op.isCounterReset = false) (hn : (lookupP m n).isSome = true) :
    restartCountOf m n ≤ restartCountOf (applyOp m op) n ∧
    restartCountOf (restart_applied f o now m n) n = restartCountOf m n + 1 ∧
    restartCountOf (reset_plugin_circuit m n).1 n = 0 ∧
    restartCountOf (force_plugin_rollback (f n) o now m n).1 n = 0 := by
  refine ⟨?_, ?_, ?_, ?_⟩
  · cases op with
    | startOp f2 now2 n2 => simp [applyOp, rc_start_plugin]
    | stopOp o2 n2 => simp [applyOp, rc_stop_plugin]
    | restartOp f2 o2 now2 n2 =>
      simp only [applyOp]
      rw [rc_restart_applied]
      split_ifs <;> omega
    | healthOp f2 o2 now2 n2 => exact rc_health_step_mono f2 o2 now2 m n2 n
    | resetOp n2 => simp [MgrOp.isCounterReset] at hop
    | rollbackOp f2 o2 now2 n2 => simp [MgrOp.isCounterReset] at hop
    | activityOp now2 n2 => simp [applyOp, rc_mark_activity]
  · rw [rc_restart_applied]
    simp [hn]
  · rw [rc_reset_circuit]
    simp [hn]
  · rw [rc_force_rollback]
    simp [hn]

/-- Witness for C7: a concrete plugin map, restart operation and
non-reset operation evaluated on explicit inputs. -/
theorem C7_restart_count_witness :
    restartCountOf exMgrCount5 "p" ≤
      restartCountOf (applyOp exMgrCount5 (MgrOp.startOp true 0 "p")) "p" ∧
    restartCountOf
        (restart_applied (fun _ => true) StopOutcome.timeoutThenKill 7 exMgrCount5 "p") "p" =
      restartCountOf exMgrCount5 "p" + 1 ∧
    restartCountOf (reset_plugin_circuit exMgrCount5 "p").1 "p" = 0 ∧
    restartCountOf
        (force_plugin_rollback true StopOutcome.timeoutThenKill 7 exMgrCount5 "p").1 "p" = 0 :=
  C7_restart_count exMgrCount5 "p" (MgrOp.startOp true 0 "p")
    (fun _ => true) StopOutcome.timeoutThenKill 7 (by decide) (by decide)

/-! Claim C4: agent re-registration. -/

/-- Claim C4 counterexample: an agent first registered at time 1000 and
re-registered at time 2000 ends up with registration_time 2000, so the
original registration time of the existing record is not preserved. -/
theorem C4_counterexample :
    (lookupA exAgents "aabbccddeeff").map Agent.registration_time = some 1000 ∧
    (lookupA (handle_agent_registration 2000 exAgents exRegMsg) "aabbccddeeff").map
      Agent.registration_time = some 2000 := by decide

/-- Claim C4 (amended): handling a registration fully replaces the
agent record with one built solely from the message and the clock,
marks it online with a fresh heartbeat stamp, and stamps both last_seen
and registration_time to now (the original registration time of an
existing record is not preserved); hence two successive identical
registrations at the same clock reading leave an identical registry. -/
theorem C4_registration_replaces (now : Int) (m : AgentsMap)
    (msg : AgentRegistrationMessage) :
    lookupA (handle_agent_registration now m msg) msg.agent_id =
      some (registeredAgent now msg) ∧
    (registeredAgent now msg).status.status = "online" ∧
    (registeredAgent now msg).status.last_heartbeat = some now ∧
    (registeredAgent now msg).status.system = none ∧
    (registeredAgent now msg).last_seen = now ∧
    (registeredAgent now msg).registration_time = now ∧
    handle_agent_registration now (handle_agent_registration now m msg) msg =
      handle_agent_registration now m msg := by
  refine ⟨?_, rfl, rfl, rfl, rfl, rfl, ?_⟩
  · rw [handle_agent_registration, lookupA_insertA]
    simp
  · unfold handle_agent_registration
    exact insertA_insertA m msg.agent_id _ _

/-! Claim C5: the stale sweeper. -/

/-- Claim C5 counterexample: a sweep pass over a registry with no stale
agent modifies nothing and still writes the snapshot, so persistence is
not conditional on at least one agent having been modified. -/
theorem C5_counterexample :
    (sweep_pass 1000 2 exAgents).1 = exAgents ∧
    (sweep_pass 1000 2 exAgents).2.1 = [] ∧
    (sweep_pass 1000 2 exAgents).2.2 = true := by decide

theorem offlineAgent_idem (a : Agent) :
    offlineAgent (offlineAgent a) = offlineAgent a := rfl

theorem offlineAgent_comp :
    offlineAgent ∘ offlineAgent = offlineAgent := funext offlineAgent_idem

theorem lookupA_markList (l : List String) (m : AgentsMap) (id : String) :
    lookupA (l.foldl (fun acc i => mark_agent_offline acc i) m) id =
      if id ∈ l then (lookupA m id).map offlineAgent else lookupA m id := by
  induction l generalizing m with
  | nil => simp
  | cons x l ih =>
    simp only [List.foldl_cons]
    rw [ih]
    unfold mark_agent_offline
    rw [lookupA_modifyA]
    by_cases hx : id = x
    · subst hx
      by_cases hl : id ∈ l <;>
        simp [hl, Option.map_map, offlineAgent_comp]
    · by_cases hl : id ∈ l <;> simp [hl, hx]

theorem mem_of_lookupA_eq_some (m : AgentsMap) (id : String) (a : Agent)
    (h : lookupA m id = some a) : (id, a) ∈ m := by
  induction m with
  | nil => simp [lookupA] at h
  | cons kv rest ih =>
    obtain ⟨k, b⟩ := kv
    simp only [lookupA] at h
    by_cases hk : k = id
    · subst hk
      simp only [if_pos rfl] at h
      cases h
      exact List.mem_cons_self _ _
    · rw [if_neg hk] at h
      exact List.mem_cons_of_mem _ (ih h)

theorem lookupA_eq_some_of_mem (m : AgentsMap) (id : String) (a : Agent)
    (hnd : (m.map Prod.fst).Nodup) (h : (id, a) ∈ m) : lookupA m id = some a := by
  induction m with
  | nil => cases h
  | cons kv rest ih =>
    obtain ⟨k, b⟩ := kv
    simp only [List.map_cons, List.nodup_cons] at hnd
    rcases List.mem_cons.mp h with h1 | h1
    · cases h1
      simp [lookupA]
    · have hk : ¬ k = id := by
        intro hk
        subst hk
        exact hnd.1 (List.mem_map.mpr ⟨(k, a), h1, rfl⟩)
      simp only [lookupA, if_neg hk]
      exact ih hnd.2 h1

theorem mem_toMark_iff (threshold : Int) (m : AgentsMap) (id : String) (a : Agent)
    (hnd : (m.map Prod.fst).Nodup) (ha : lookupA m id = some a) :
    (id ∈ (m.filter (fun kv => isStale threshold kv.2)).map Prod.fst) ↔
      isStale threshold a = true := by
  constructor
  · intro h
    obtain ⟨kv, hmem, heq⟩ := List.mem_map.mp h
    obtain ⟨id2, b⟩ := kv
    cases heq
    have hf := List.mem_filter.mp hmem
    have hb : lookupA m id2 = some b := lookupA_eq_some_of_mem m id2 b hnd hf.1
    rw [ha] at hb
    cases hb
    exact hf.2
  · intro h
    exact List.mem_map.mpr
      ⟨(id, a), List.mem_filter.mpr ⟨mem_of_lookupA_eq_some m id a ha, h⟩, rfl⟩

/-- Claim C5 (amended): a sweep pass sets status offline for exactly
those agents that are online and last seen strictly before the stale
threshold, changing nothing else of the record and nothing of the other
agents, and then writes the snapshot unconditionally (not only when
some agent was modified). -/
theorem C5_sweep (now tm : Int) (m : AgentsMap) (id : String) (a : Agent)
    (hnd : (m.map Prod.fst).Nodup) (ha : lookupA m id = some a) :
    lookupA (sweep_pass now tm m).1 id =
      some (if isStale (now - tm * 60) a then offlineAgent a else a) ∧
    (sweep_pass now tm m).2.2 = true ∧
    (offlineAgent a).last_seen = a.last_seen ∧
    (offlineAgent a).status.status = "offline" ∧
    (offlineAgent a).status.last_heartbeat = a.status.last_heartbeat := by
  refine ⟨?_, rfl, rfl, rfl, rfl⟩
  simp only [sweep_pass]
  rw [lookupA_markList]
  have hiff := mem_toMark_iff (now - tm * 60) m id a hnd ha
  by_cases hs : isStale (now - tm * 60) a = true
  · rw [if_pos (hiff.mpr hs), ha, if_pos hs]
    rfl
  · rw [if_neg (fun hmem => hs (hiff.mp hmem)), ha, if_neg hs]

/-- Witness for C5: one stale online agent evaluated through a sweep
pass on explicit inputs. -/
theorem C5_sweep_witness :
    lookupA (sweep_pass 10000 2 [("aabbccddeeff", registeredAgent 0 exRegMsg)]).1
        "aabbccddeeff" =
      some (if isStale (10000 - 2 * 60) (registeredAgent 0 exRegMsg) then
              offlineAgent (registeredAgent 0 exRegMsg)
            else registeredAgent 0 exRegMsg) ∧
    (sweep_pass 10000 2 [("aabbccddeeff", registeredAgent 0 exRegMsg)]).2.2 = true ∧
    (offlineAgent (registeredAgent 0 exRegMsg)).last_seen =
      (registeredAgent 0 exRegMsg).last_seen ∧
    (offlineAgent (registeredAgent 0 exRegMsg)).status.status = "offline" ∧
    (offlineAgent (registeredAgent 0 exRegMsg)).status.last_heartbeat =
      (registeredAgent 0 exRegMsg).status.last_heartbeat :=
  C5_sweep 10000 2 [("aabbccddeeff", registeredAgent 0 exRegMsg)] "aabbccddeeff"
    (registeredAgent 0 exRegMsg) (by decide) (by decide)

/-! Claim C6: agent command dispatch. -/

/-- Claim C6 counterexample: the shutdown command is published on the
fixed topic symbion/agents/command@v1 for every agent, not on a
per-agent topic ending in the agent id. -/
theorem C6_counterexample :
    ((agent_shutdown_endpoint exDispatch "aabbccddeeff" "t0").1.published.map
      Prod.fst = ["symbion/agents/command@v1"]) ∧
    ("symbion/agents/command@v1" : String) ≠
      "symbion/agents/command@v1/aabbccddeeff" := by decide

theorem freshCommandId_injective : Function.Injective freshCommandId := by
  intro a b h
  have h2 : List.replicate (a + 1) 'u' = List.replicate (b + 1) 'u' :=
    congrArg String.data h
  have h3 := congrArg List.length h2
  simp at h3
  exact h3

theorem runShutdowns_ids (st : DispatchState) (calls : List (String × String)) :
    (runShutdowns st calls).2 =
      (List.range' st.counter calls.length).map freshCommandId := by
  induction calls generalizing st with
  | nil => rfl
  | cons c rest ih =>
    obtain ⟨id, ts⟩ := c
    simp only [runShutdowns, List.length_cons, List.range']
    rw [ih]
    rfl

/-- Claim C6 (amended): each dispatched agent command publishes exactly
one message, on the fixed topic symbion/agents/command@v1 shared by all
agents (the agent id travels in the payload, not in the topic), whose
payload carries the requested command type and a freshly generated
command id unique across the process lifetime, and the endpoint returns
that same command id in its body. -/
theorem C6_command_dispatch (st : DispatchState) (id nowStr : String)
    (calls : List (String × String)) :
    (agent_shutdown_endpoint st id nowStr).1.published =
      st.published ++ [("symbion/agents/command@v1",
        { command_id := freshCommandId st.counter
          agent_id := id
          command_type := "shutdown"
          parameters := none
          timeout_seconds := some 30
          timestamp := nowStr })] ∧
    (agent_shutdown_endpoint st id nowStr).2.command_id = freshCommandId st.counter ∧
    (agent_shutdown_endpoint st id nowStr).2.success = true ∧
    (runShutdowns st calls).2.Nodup := by
  refine ⟨rfl, rfl, rfl, ?_⟩
  rw [runShutdowns_ids]
  exact List.Nodup.map freshCommandId_injective (List.nodup_range' st.counter calls.length)

/-! Claim C8: bridge timeout behavior. -/

/-- Claim C8: when no matching response arrives within the 5 second
timeout, send_command produces the 504 gateway-timeout status and the
request id is no longer pending; a matching reply delivered before the
5 seconds elapse yields the response instead. -/
theorem C8_bridge_timeout (pending : List String) (rid : String) (t : Nat)
    (resp : NoteResponse) (hfresh : rid ∉ pending) :
    (bridge_send_command pending rid true none).2 = Except.error 504 ∧
    rid ∉ (bridge_send_command pending rid true none).1 ∧
    (BRIDGE_TIMEOUT_MS ≤ t →
      (bridge_send_command pending rid true (some (t, resp))).2 = Except.error 504 ∧
      rid ∉ (bridge_send_command pending rid true (some (t, resp))).1) ∧
    (t < BRIDGE_TIMEOUT_MS →
      (bridge_send_command pending rid true (some (t, resp))).2 = Except.ok resp) := by
  have hins : insertId pending rid = rid :: pending := by
    simp [insertId, hfresh]
  refine ⟨?_, ?_, ?_, ?_⟩
  · simp [bridge_send_command]
  · simp [bridge_send_command, hins, List.erase_cons_head, hfresh]
  · intro ht
    have hnt : ¬ t < BRIDGE_TIMEOUT_MS := by omega
    constructor
    · simp [bridge_send_command, hnt]
    · simp [bridge_send_command, hins, hnt, List.erase_cons_head, hfresh]
  · intro ht
    simp [bridge_send_command, ht]

/-- Witness for C8: a concrete fresh request id with a reply arriving
at 5001 milliseconds and one arriving at 4999 milliseconds. -/
theorem C8_bridge_timeout_witness :
    (bridge_send_command [] "r1" true none).2 = Except.error 504 ∧
    "r1" ∉ (bridge_send_command [] "r1" true none).1 ∧
    (BRIDGE_TIMEOUT_MS ≤ 5001 →
      (bridge_send_command [] "r1" true
        (some (5001, NoteResponse.success "r1" "list" "[]"))).2 = Except.error 504 ∧
      "r1" ∉ (bridge_send_command [] "r1" true
        (some (5001, NoteResponse.success "r1" "list" "[]"))).1) ∧
    (5001 < BRIDGE_TIMEOUT_MS →
      (bridge_send_command [] "r1" true
        (some (5001, NoteResponse.success "r1" "list" "[]"))).2 =
        Except.ok (NoteResponse.success "r1" "list" "[]")) :=
  C8_bridge_timeout [] "r1" 5001 (NoteResponse.success "r1" "list" "[]") (by decide)

/-! Claim C2: the pending map of the bridge. -/

theorem bridgeRun_cons (e : BridgeEvent) (tr : List BridgeEvent) (s : BridgeState) :
    bridgeRun (e :: tr) s = bridgeRun tr (bridgeStep s e) := rfl

theorem bridgeRun_append (t1 t2 : List BridgeEvent) (s : BridgeState) :
    bridgeRun (t1 ++ t2) s = bridgeRun t2 (bridgeRun t1 s) := by
  simp [bridgeRun]

theorem insCount_cons (e : BridgeEvent) (tr : List BridgeEvent) (id : String) :
    insCount id (e :: tr) =
      insCount id tr + (if e = BridgeEvent.insert id then 1 else 0) := by
  simp [insCount, List.countP_cons]

theorem bridgeStep_nodup (s : BridgeState) (e : BridgeEvent)
    (h : s.pending.Nodup) : (bridgeStep s e).pending.Nodup := by
  cases e with
  | insert i =>
    simp only [bridgeStep, insertId]
    split_ifs with hi
    · exact h
    · exact List.nodup_cons.mpr ⟨hi, h⟩
  | respond i =>
    simp only [bridgeStep]
    split_ifs with hi
    · exact h.erase i
    · exact h
  | expire i => exact h.erase i

theorem bridge_pending_nodup (tr : List BridgeEvent) (s : BridgeState)
    (h : s.pending.Nodup) : (bridgeRun tr s).pending.Nodup := by
  induction tr generalizing s with
  | nil => exact h
  | cons e tr ih =>
    rw [bridgeRun_cons]
    exact ih _ (bridgeStep_nodup s e h)

theorem bridgeStep_count (s : BridgeState) (e : BridgeEvent) (id : String) :
    (bridgeStep s e).pending.count id + (bridgeStep s e).fulfilled.count id ≤
      s.pending.count id + s.fulfilled.count id +
        (if e = BridgeEvent.insert id then 1 else 0) := by
  cases e with
  | insert i =>
    simp only [bridgeStep, insertId]
    by_cases hid : i = id
    · subst hid
      simp only [if_pos rfl]
      split_ifs with hi
      · omega
      · rw [List.count_cons_self]
        omega
    · have h0 : (if BridgeEvent.insert i = BridgeEvent.insert id then (1 : Nat) else 0) = 0 := by
        simp [hid]
      rw [h0]
      split_ifs with hi
      · omega
      · rw [List.count_cons_of_ne (fun h2 => hid h2.symm)]
        omega
  | respond i =>
    have h0 : (if BridgeEvent.respond i = BridgeEvent.insert id then (1 : Nat) else 0) = 0 := by
      simp
    rw [h0]
    simp only [bridgeStep]
    split_ifs with hi
    · by_cases hid : i = id
      · subst hid
        have hpos : 0 < s.pending.count i := List.count_pos_iff.mpr hi
        rw [List.count_erase_self, List.count_cons_self]
        omega
      · rw [List.count_erase_of_ne (fun h2 => hid h2.symm),
            List.count_cons_of_ne (fun h2 => hid h2.symm)]
        omega
    · omega
  | expire i =>
    have h0 : (if BridgeEvent.expire i = BridgeEvent.insert id then (1 : Nat) else 0) = 0 := by
      simp
    rw [h0]
    simp only [bridgeStep]
    have hle := List.Sublist.count_le (List.erase_sublist i s.pending) id
    omega

theorem bridge_count_inv (tr : List BridgeEvent) (s : BridgeState) (id : String) :
    (bridgeRun tr s).pending.count id + (bridgeRun tr s).fulfilled.count id ≤
      s.pending.count id + s.fulfilled.count id + insCount id tr := by
  induction tr generalizing s with
  | nil => simp [bridgeRun, insCount]
  | cons e tr ih =>
    rw [bridgeRun_cons, insCount_cons]
    have h1 := ih (bridgeStep s e)
    have h2 := bridgeStep_count s e id
    omega

theorem bridge_no_insert_absent (tr : List BridgeEvent) (s : BridgeState) (id : String)
    (h : id ∉ s.pending) (hins : insCount id tr = 0) :
    id ∉ (bridgeRun tr s).pending := by
  induction tr generalizing s with
  | nil => exact h
  | cons e tr ih =>
    rw [bridgeRun_cons]
    rw [insCount_cons] at hins
    refine ih _ ?_ (by omega)
    have hne : ¬ e = BridgeEvent.insert id := by
      intro he
      simp [he] at hins
    cases e with
    | insert i =>
      have hi : ¬ i = id := fun h2 => hne (by rw [h2])
      simp only [bridgeStep, insertId]
      split_ifs with hmem
      · exact h
      · intro hc
        rcases List.mem_cons.mp hc with h2 | h2
        · exact hi h2.symm
        · exact h h2
    | respond i =>
      simp only [bridgeStep]
      split_ifs with hmem
      · exact fun hc => h (List.mem_of_mem_erase hc)
      · exact h
    | expire i => exact fun hc => h (List.mem_of_mem_erase hc)

theorem bridge_stay_pending (tr : List BridgeEvent) (s : BridgeState) (id : String)
    (h : id ∈ s.pending) (hr : BridgeEvent.respond id ∉ tr)
    (he : BridgeEvent.expire id ∉ tr) :
    id ∈ (bridgeRun tr s).pending := by
  induction tr generalizing s with
  | nil => exact h
  | cons e tr ih =>
    rw [bridgeRun_cons]
    have hr2 : BridgeEvent.respond id ∉ tr := fun hc => hr (List.mem_cons_of_mem _ hc)
    have he2 : BridgeEvent.expire id ∉ tr := fun hc => he (List.mem_cons_of_mem _ hc)
    refine ih _ ?_ hr2 he2
    cases e with
    | insert i =>
      simp only [bridgeStep, insertId]
      split_ifs with hmem
      · exact h
      · exact List.mem_cons_of_mem _ h
    | respond i =>
      have hi : ¬ i = id := by
        intro h2
        exact hr (by rw [h2]; exact List.mem_cons_self _ _)
      simp only [bridgeStep]
      split_ifs with hmem
      · exact List.mem_erase_of_ne (fun h2 => hi h2.symm) |>.mpr h
      · exact h
    | expire i =>
      have hi : ¬ i = id := by
        intro h2
        exact he (by rw [h2]; exact List.mem_cons_self _ _)
      simp only [bridgeStep]
      exact List.mem_erase_of_ne (fun h2 => hi h2.symm) |>.mpr h

theorem bridge_removed (s : BridgeState) (e : BridgeEvent) (id : String)
    (h : s.pending.Nodup)
    (he : e = BridgeEvent.respond id ∨ e = BridgeEvent.expire id) :
    id ∉ (bridgeStep s e).pending := by
  have herase : id ∉ s.pending.erase id := by
    intro hc
    exact ((List.Nodup.mem_erase_iff h).mp hc).1 rfl
  rcases he with rfl | rfl
  · simp only [bridgeStep]
    split_ifs with hi
    · exact herase
    · exact hi
  · exact herase

/-- Claim C2: for a request id inserted at most once, the pending map
holds it at most once and its reply slot is fulfilled at most once
(handle_response removes the entry before fulfilling); the id stays
pending from its insertion until a matching response delivery or the
timeout removes it, and it is absent from the map from that removal on. -/
theorem C2_pending_map (tr pre post : List BridgeEvent) (rem : BridgeEvent)
    (id : String) (h1 : insCount id tr ≤ 1) :
    (bridgeRun tr bridgeInit).pending.count id ≤ 1 ∧
    (bridgeRun tr bridgeInit).fulfilled.count id ≤ 1 ∧
    (tr = pre ++ rem :: post →
      (rem = BridgeEvent.respond id ∨ rem = BridgeEvent.expire id) →
      insCount id post = 0 →
      id ∉ (bridgeRun tr bridgeInit).pending) ∧
    (tr = pre ++ BridgeEvent.insert id :: post →
      BridgeEvent.respond id ∉ post → BridgeEvent.expire id ∉ post →
      id ∈ (bridgeRun tr bridgeInit).pending) := by
  have hnd : ∀ tr2, (bridgeRun tr2 bridgeInit).pending.Nodup := fun tr2 =>
    bridge_pending_nodup tr2 bridgeInit (by simp [bridgeInit])
  refine ⟨?_, ?_, ?_, ?_⟩
  · exact List.nodup_iff_count_le_one.mp (hnd tr) id
  · have h2 := bridge_count_inv tr bridgeInit id
    have h3 : bridgeInit.pending.count id = 0 := rfl
    have h4 : bridgeInit.fulfilled.count id = 0 := rfl
    rw [h3, h4] at h2
    omega
  · intro htr hrem hpost
    subst htr
    have hsplit : pre ++ rem :: post = (pre ++ [rem]) ++ post := by simp
    rw [hsplit, bridgeRun_append]
    refine bridge_no_insert_absent post _ id ?_ hpost
    have hstep : bridgeRun (pre ++ [rem]) bridgeInit =
        bridgeStep (bridgeRun pre bridgeInit) rem := by
      rw [bridgeRun_append]; rfl
    rw [hstep]
    exact bridge_removed _ rem id (hnd pre) hrem
  · intro htr hr he
    subst htr
    have hsplit : pre ++ BridgeEvent.insert id :: post =
        (pre ++ [BridgeEvent.insert id]) ++ post := by simp
    rw [hsplit, bridgeRun_append]
    refine bridge_stay_pending post _ id ?_ hr he
    have hstep : bridgeRun (pre ++ [BridgeEvent.insert id]) bridgeInit =
        bridgeStep (bridgeRun pre bridgeInit) (BridgeEvent.insert id) := by
      rw [bridgeRun_append]; rfl
    rw [hstep]
    simp only [bridgeStep, insertId]
    split_ifs with hi
    · exact hi
    · exact List.mem_cons_self _ _

/-- Witness for C2: a concrete trace holding one insertion of the id,
its reply delivery, and a late duplicate response. -/
theorem C2_pending_map_witness :
    (bridgeRun [BridgeEvent.insert "r1", BridgeEvent.respond "r1",
        BridgeEvent.respond "r1"] bridgeInit).pending.count "r1" ≤ 1 ∧
    (bridgeRun [BridgeEvent.insert "r1", BridgeEvent.respond "r1",
        BridgeEvent.respond "r1"] bridgeInit).fulfilled.count "r1" ≤ 1 ∧
    ([BridgeEvent.insert "r1", BridgeEvent.respond "r1", BridgeEvent.respond "r1"] =
        [BridgeEvent.insert "r1"] ++ BridgeEvent.respond "r1" ::
          [BridgeEvent.respond "r1"] →
      (BridgeEvent.respond "r1" = BridgeEvent.respond "r1" ∨
        BridgeEvent.respond "r1" = BridgeEvent.expire "r1") →
      insCount "r1" [BridgeEvent.respond "r1"] = 0 →
      "r1" ∉ (bridgeRun [BridgeEvent.insert "r1", BridgeEvent.respond "r1",
        BridgeEvent.respond "r1"] bridgeInit).pending) ∧
    ([BridgeEvent.insert "r1", BridgeEvent.respond "r1", BridgeEvent.respond "r1"] =
        [BridgeEvent.insert "r1"] ++ BridgeEvent.insert "r1" ::
          [BridgeEvent.respond "r1"] →
      BridgeEvent.respond "r1" ∉ [BridgeEvent.respond "r1"] →
      BridgeEvent.expire "r1" ∉ [BridgeEvent.respond "r1"] →
      "r1" ∈ (bridgeRun [BridgeEvent.insert "r1", BridgeEvent.respond "r1",
        BridgeEvent.respond "r1"] bridgeInit).pending) :=
  C2_pending_map
    [BridgeEvent.insert "r1", BridgeEvent.respond "r1", BridgeEvent.respond "r1"]
    [BridgeEvent.insert "r1"] [BridgeEvent.respond "r1"]
    (BridgeEvent.respond "r1") "r1" (by decide)

/-! Claim C9: the process-handle invariant. -/

theorem quiescentB_start (f : Bool) (now : Int) (p : PluginInstance)
    (h : quiescentB p = true) : quiescentB (p.start f now).1 = true := by
  cases hp : p.process <;> cases hs : p.status <;>
    simp_all [quiescentB, PluginInstance.start, PluginInstance.update_circuit_state,
      PluginStatus.isRunning] <;> split_ifs <;> simp_all

theorem quiescentB_stop (o : StopOutcome) (p : PluginInstance)
    (h : quiescentB p = true) : quiescentB (p.stop o).1 = true := by
  cases hp : p.process <;> cases o <;> cases hs : p.status <;>
    simp_all [quiescentB, PluginInstance.stop, PluginStatus.isRunning]

theorem quiescentB_check (o : HealthOutcome) (p : PluginInstance)
    (h : quiescentB p = true) : quiescentB (p.check_health o).1 = true := by
  cases hp : p.process <;> cases o <;> cases hs : p.status <;>
    simp_all [quiescentB, PluginInstance.check_health, PluginStatus.isRunning] <;>
    (try rename_i c; try cases c) <;> simp_all

theorem check_health_false_proc (o : HealthOutcome) (p : PluginInstance)
    (h : (p.check_health o).2 = false) : ((p.check_health o).1).process = none := by
  cases hp : p.process <;> cases o <;>
    simp_all [PluginInstance.check_health] <;>
    (try rename_i c; try cases c) <;> simp_all

theorem quiescentB_update_of_procNone (now : Int) (p : PluginInstance)
    (hp : p.process = none) (h : quiescentB p = true) :
    quiescentB (p.update_circuit_state now) = true := by
  cases hs : p.status <;>
    simp_all [quiescentB, PluginInstance.update_circuit_state, PluginStatus.isRunning] <;>
    split_ifs <;> simp_all

theorem update_circuit_proc (now : Int) (p : PluginInstance) :
    (p.update_circuit_state now).process = p.process := by
  simp only [PluginInstance.update_circuit_state]
  split_ifs <;> rfl

theorem quiescentB_rollback_finish (cur : PluginManifest)
    (r : PluginInstance × Except PluginError Unit)
    (h : quiescentB r.1 = true) : quiescentB (rollback_finish cur r).1 = true := by
  obtain ⟨p1, r2⟩ := r
  cases r2 <;> exact h

theorem proc_rollback_finish (cur : PluginManifest)
    (r : PluginInstance × Except PluginError Unit) :
    ((rollback_finish cur r).1).process = r.1.process := by
  obtain ⟨p1, r2⟩ := r
  cases r2 <;> rfl

theorem err_rollback_finish (cur : PluginManifest)
    (r : PluginInstance × Except PluginError Unit) (e : PluginError)
    (h : (rollback_finish cur r).2 = Except.error e) : r.2 = Except.error e := by
  obtain ⟨p1, r2⟩ := r
  cases r2
  · simpa [rollback_finish] using h
  · simpa [rollback_finish] using h

theorem quiescentB_attempt_rollback (f : Bool) (now : Int) (p : PluginInstance)
    (h : quiescentB p = true) : quiescentB (p.attempt_rollback f now).1 = true := by
  unfold PluginInstance.attempt_rollback
  cases hw : p.last_working_manifest
  · exact h
  · rename_i wm
    apply quiescentB_rollback_finish
    apply quiescentB_start
    exact h

theorem start_error_proc (f : Bool) (now : Int) (p : PluginInstance) (e : PluginError)
    (herr : (p.start f now).2 = Except.error e) :
    ((p.start f now).1).process = p.process := by
  unfold PluginInstance.start at herr ⊢
  split_ifs at herr ⊢ <;> simp_all [update_circuit_proc]

theorem attempt_rollback_error_proc (f : Bool) (now : Int) (p : PluginInstance)
    (e : PluginError)
    (herr : (p.attempt_rollback f now).2 = Except.error e) :
    ((p.attempt_rollback f now).1).process = p.process := by
  unfold PluginInstance.attempt_rollback at herr ⊢
  cases hw : p.last_working_manifest
  · rfl
  · rename_i wm
    rw [hw] at herr
    exact (proc_rollback_finish _ _).trans
      (start_error_proc f now _ e (err_rollback_finish _ _ e herr))

theorem mem_of_lookupP (m : Mgr) (n : String) (p : PluginInstance)
    (h : lookupP m n = some p) : (n, p) ∈ m := by
  induction m with
  | nil => simp [lookupP] at h
  | cons kv rest ih =>
    obtain ⟨k, b⟩ := kv
    simp only [lookupP] at h
    by_cases hk : k = n
    · subst hk
      rw [if_pos rfl] at h
      cases h
      exact List.mem_cons_self _ _
    · rw [if_neg hk] at h
      exact List.mem_cons_of_mem _ (ih h)

theorem lookupP_quiescent (m : Mgr) (n : String) (p : PluginInstance)
    (hm : mgrQuiescentB m = true) (h : lookupP m n = some p) :
    quiescentB p = true := by
  rw [mgrQuiescentB, List.all_eq_true] at hm
  exact hm (n, p) (mem_of_lookupP m n p h)

theorem mem_modifyP (m : Mgr) (n : String) (g : PluginInstance → PluginInstance)
    (kv : String × PluginInstance) (h : kv ∈ modifyP m n g) :
    kv ∈ m ∨ ∃ p, lookupP m n = some p ∧ kv = (n, g p) := by
  induction m with
  | nil => simp [modifyP] at h
  | cons kv0 rest ih =>
    obtain ⟨k, b⟩ := kv0
    by_cases hk : k = n
    · subst hk
      simp only [modifyP, if_pos rfl] at h
      rcases List.mem_cons.mp h with h1 | h1
      · right
        exact ⟨b, by simp [lookupP], h1⟩
      · left
        exact List.mem_cons_of_mem _ h1
    · simp only [modifyP, if_neg hk] at h
      rcases List.mem_cons.mp h with h1 | h1
      · left
        rw [h1]
        exact List.mem_cons_self _ _
      · rcases ih h1 with h2 | ⟨p, hp, hkv⟩
        · left
          exact List.mem_cons_of_mem _ h2
        · right
          exact ⟨p, by simp [lookupP, hk, hp], hkv⟩

theorem mgrQ_modify (m : Mgr) (n : String) (g : PluginInstance → PluginInstance)
    (hm : mgrQuiescentB m = true)
    (hg : ∀ p, lookupP m n = some p → quiescentB (g p) = true) :
    mgrQuiescentB (modifyP m n g) = true := by
  rw [mgrQuiescentB, List.all_eq_true]
  intro kv hkv
  rcases mem_modifyP m n g kv hkv with h | ⟨p, hp, hkv2⟩
  · rw [mgrQuiescentB, List.all_eq_true] at hm
    exact hm kv h
  · rw [hkv2]
    exact hg p hp

theorem mgrQ_start_plugin (f : String → Bool) (now : Int) (m : Mgr) (name : String)
    (hm : mgrQuiescentB m = true) :
    mgrQuiescentB (start_plugin f now m name).1 = true := by
  unfold start_plugin
  cases h : lookupP m name
  · exact hm
  · rename_i p
    apply mgrQ_modify _ _ _ hm
    intro p0 hp0
    exact quiescentB_start _ now p (lookupP_quiescent m name p hm h)

theorem mgrQ_stop_plugin (o : StopOutcome) (m : Mgr) (name : String)
    (hm : mgrQuiescentB m = true) :
    mgrQuiescentB (stop_plugin o m name).1 = true := by
  unfold stop_plugin
  cases h : lookupP m name
  · exact hm
  · rename_i p
    apply mgrQ_modify _ _ _ hm
    intro p0 hp0
    exact quiescentB_stop o p (lookupP_quiescent m name p hm h)

theorem mgrQ_restart_applied (f : String → Bool) (o : StopOutcome) (now : Int)
    (m : Mgr) (name : String) (hm : mgrQuiescentB m = true) :
    mgrQuiescentB (restart_applied f o now m name) = true := by
  unfold restart_applied restart_plugin
  have hstop : mgrQuiescentB (stop_plugin o m name).1 = true :=
    mgrQ_stop_plugin o m name hm
  cases h : lookupP (stop_plugin o m name).1 name
  · exact hstop
  · rename_i p
    rw [restartState_toRestartResult]
    apply mgrQ_start_plugin
    apply mgrQ_modify _ _ _ hstop
    intro p0 hp0
    have hq : quiescentB p = true :=
      lookupP_quiescent (stop_plugin o m name).1 name p hstop h
    exact hq

theorem mgrQ_reset (m : Mgr) (name : String) (hm : mgrQuiescentB m = true) :
    mgrQuiescentB (reset_plugin_circuit m name).1 = true := by
  unfold reset_plugin_circuit
  cases h : lookupP m name
  · exact hm
  · rename_i p
    apply mgrQ_modify _ _ _ hm
    intro p0 hp0
    have hq := lookupP_quiescent m name p hm h
    unfold resetFn
    split_ifs with hs
    · cases hp : p.process
      · simp_all [quiescentB, PluginStatus.isRunning]
      · simp_all [quiescentB, PluginStatus.isRunning]
    · exact hq

theorem mgrQ_force_rollback (f : Bool) (o : StopOutcome) (now : Int)
    (m : Mgr) (name : String) (hm : mgrQuiescentB m = true) :
    mgrQuiescentB (force_plugin_rollback f o now m name).1 = true := by
  unfold force_plugin_rollback
  cases h : lookupP m name
  · exact hm
  · rename_i p
    apply mgrQ_modify _ _ _ hm
    intro p0 hp0
    have hq := lookupP_quiescent m name p hm h
    unfold forceRollbackFn
    apply quiescentB_attempt_rollback
    split_ifs with hs
    · exact quiescentB_stop o p hq
    · exact hq

theorem mgrQ_rollback_step (f : Bool) (now : Int) (m : Mgr) (name : String)
    (hm : mgrQuiescentB m = true)
    (hnr : ∀ q, lookupP m name = some q → q.status.isRunning = false) :
    mgrQuiescentB (rollback_step f now m name) = true := by
  unfold rollback_step
  cases h : lookupP m name
  · exact hm
  · rename_i p
    have hq := lookupP_quiescent m name p hm h
    have hpn : p.process = none := by
      have hnr2 := hnr p h
      cases hp : p.process
      · rfl
      · cases hs : p.status <;> simp_all [quiescentB, PluginStatus.isRunning]
    simp only []
    cases hr : (p.attempt_rollback f now).2
    · rename_i e
      simp only []
      apply mgrQ_modify _ _ _ hm
      intro p0 hp0
      have hproc := attempt_rollback_error_proc f now p e hr
      rw [hpn] at hproc
      simp [quiescentB, hproc, PluginStatus.isRunning]
    · simp only []
      apply mgrQ_modify _ _ _ hm
      intro p0 hp0
      exact quiescentB_attempt_rollback f now p hq

theorem mgrQ_health_act (f : Bool) (now : Int) (p2 : PluginInstance)
    (m2 : Mgr) (name : String) (hm2 : mgrQuiescentB m2 = true)
    (hnr : ∀ q, lookupP m2 name = some q → q.status.isRunning = false) :
    mgrQuiescentB (health_act f now p2 m2 name) = true := by
  unfold health_act
  split_ifs <;> try exact hm2
  all_goals
    cases p2.circuit_state <;> simp only [] <;>
      first
        | exact hm2
        | exact mgrQ_restart_applied _ _ now m2 name hm2
        | exact mgrQ_rollback_step f now m2 name hm2 hnr

theorem mgrQ_mark_activity (now : Int) (m : Mgr) (name : String)
    (hm : mgrQuiescentB m = true) :
    mgrQuiescentB (mark_plugin_activity now m name) = true := by
  unfold mark_plugin_activity
  apply mgrQ_modify _ _ _ hm
  intro p0 hp0
  have hq := lookupP_quiescent m name p0 hm hp0
  exact hq

theorem mgrQ_health_step (f : Bool) (o : HealthOutcome) (now : Int)
    (m : Mgr) (name : String) (hm : mgrQuiescentB m = true) :
    mgrQuiescentB (health_step f o now m name) = true := by
  unfold health_step
  cases h : lookupP m name
  · exact hm
  · rename_i p
    have hq := lookupP_quiescent m name p hm h
    simp only []
    by_cases hc : (p.check_health o).2 = true
    · rw [if_pos hc]
      apply mgrQ_modify _ _ _ hm
      intro p0 hp0
      exact quiescentB_check o p hq
    · rw [if_neg hc]
      have hc2 : (p.check_health o).2 = false := by
        cases h2 : (p.check_health o).2
        · rfl
        · exact absurd h2 hc
      have hproc : ((p.check_health o).1).process = none :=
        check_health_false_proc o p hc2
      have hq2 : quiescentB (((p.check_health o).1).update_circuit_state now) = true :=
        quiescentB_update_of_procNone now _ hproc (quiescentB_check o p hq)
      have hm2 : mgrQuiescentB
          (modifyP m name (fun _ => ((p.check_health o).1).update_circuit_state now)) = true := by
        apply mgrQ_modify _ _ _ hm
        intro p0 hp0
        exact hq2
      apply mgrQ_health_act _ now _ _ name hm2
      intro q hlq
      rw [lookupP_modifyP] at hlq
      rw [if_pos rfl, h] at hlq
      have hlq2 : some (((p.check_health o).1).update_circuit_state now) = some q := hlq
      cases hlq2
      have hpn : (((p.check_health o).1).update_circuit_state now).process = none := by
        rw [update_circuit_proc]
        exact hproc
      have := hq2
      cases hs : (((p.check_health o).1).update_circuit_state now).status <;>
        simp_all [quiescentB, PluginStatus.isRunning]

theorem mgrQ_applyOp (m : Mgr) (op : MgrOp) (hm : mgrQuiescentB m = true) :
    mgrQuiescentB (applyOp m op) = true := by
  cases op with
  | startOp f now n => exact mgrQ_start_plugin _ now m n hm
  | stopOp o n => exact mgrQ_stop_plugin o m n hm
  | restartOp f o now n => exact mgrQ_restart_applied _ o now m n hm
  | healthOp f o now n => exact mgrQ_health_step f o now m n hm
  | resetOp n => exact mgrQ_reset m n hm
  | rollbackOp f o now n => exact mgrQ_force_rollback f o now m n hm
  | activityOp now n => exact mgrQ_mark_activity now m n hm

theorem quiescentB_procInv (p : PluginInstance) (h : quiescentB p = true) :
    procStatusInvB p = true := by
  cases hp : p.process <;> cases hs : p.status <;>
    simp_all [quiescentB, procStatusInvB, PluginStatus.isRunning]

/-- Claim C9: starting from any plugin map whose instances satisfy the
quiescent invariant (as freshly discovered instances do), after any
sequence of supervisor operations the child-process handle of every
plugin is present exactly when its status is Starting, Running or
Stopping. -/
theorem C9_process_invariant (ops : List MgrOp) (m0 : Mgr) (n : String)
    (h : mgrQuiescentB m0 = true) :
    procInvOf (ops.foldl applyOp m0) n = true := by
  have hq : mgrQuiescentB (ops.foldl applyOp m0) = true := by
    induction ops generalizing m0 with
    | nil => exact h
    | cons op ops ih =>
      rw [List.foldl_cons]
      exact ih _ (mgrQ_applyOp m0 op h)
  unfold procInvOf
  cases hl : lookupP (ops.foldl applyOp m0) n
  · rfl
  · rename_i p
    exact quiescentB_procInv p (lookupP_quiescent _ n p hq hl)

/-- Witness for C9: the two-plugin sample map taken through a start, a
crash detection with restart, and a stop. -/
theorem C9_process_invariant_witness :
    procInvOf
      (([MgrOp.startOp true 5 "alpha",
         MgrOp.healthOp true (HealthOutcome.exited false) 40 "alpha",
         MgrOp.stopOp (StopOutcome.exits true) "alpha"] : List MgrOp).foldl
        applyOp exMgr2) "alpha" = true :=
  C9_process_invariant
    [MgrOp.startOp true 5 "alpha",
     MgrOp.healthOp true (HealthOutcome.exited false) 40 "alpha",
     MgrOp.stopOp (StopOutcome.exits true) "alpha"] exMgr2 "alpha" (by decide)

/-! Claim C3: dependency-ordered startup. -/

theorem update_circuit_manifest (now : Int) (p : PluginInstance) :
    (p.update_circuit_state now).manifest = p.manifest := by
  simp only [PluginInstance.update_circuit_state]
  split_ifs <;> rfl

theorem manifest_start (f : Bool) (now : Int) (p : PluginInstance) :
    ((p.start f now).1).manifest = p.manifest := by
  unfold PluginInstance.start
  split_ifs <;> first | rfl | exact update_circuit_manifest now _

theorem start_ok_status (f : Bool) (now : Int) (p : PluginInstance) (u : Unit)
    (hok : (p.start f now).2 = Except.ok u) :
    ((p.start f now).1).status = PluginStatus.Running := by
  unfold PluginInstance.start at hok ⊢
  split_ifs at hok ⊢ <;> simp_all

theorem start_err_status (f : Bool) (now : Int) (p : PluginInstance) (e : PluginError)
    (herr : (p.start f now).2 = Except.error e) (hna : p.status.isActive = false) :
    ((p.start f now).1).status.isRunning = false := by
  unfold PluginInstance.start at herr ⊢
  split_ifs at herr ⊢ with h1 h2
  all_goals first
    | (rcases h1 with h1 | h1 <;> simp_all [PluginStatus.isActive])
    | (show ((PluginInstance.update_circuit_state now
          { p with
            status := PluginStatus.Failed "Start failed: spawn error" }).status).isRunning =
          false
       simp only [PluginInstance.update_circuit_state]
       split_ifs <;> simp [PluginStatus.isRunning])
    | simp at herr

theorem manifestOf_modifyP (m : Mgr) (x q : String) (g : PluginInstance → PluginInstance)
    (hg : ∀ p, lookupP m x = some p → (g p).manifest = p.manifest) :
    manifestOf (modifyP m x g) q = manifestOf m q := by
  unfold manifestOf
  rw [lookupP_modifyP]
  by_cases hq : q = x
  · rw [if_pos hq, hq]
    cases hl : lookupP m x
    · simp
    · rename_i p
      simp [hg p hl]
  · rw [if_neg hq]

theorem manifestOf_start_plugin (f : String → Bool) (now : Int) (m : Mgr)
    (x q : String) : manifestOf (start_plugin f now m x).1 q = manifestOf m q := by
  unfold start_plugin
  cases h : lookupP m x
  · rfl
  · rename_i p
    simp only []
    apply manifestOf_modifyP
    intro p0 hp0
    rw [h] at hp0
    cases hp0
    exact manifest_start (f x) now p

theorem scanPass_manifest (f : String → Bool) (now : Int) :
    ∀ (l : List String) (m : Mgr) (q : String),
    manifestOf (scanPass f now m l).1 q = manifestOf m q := by
  intro l
  induction l with
  | nil => intro m q; rfl
  | cons n rest ih =>
    intro m q
    simp only [scanPass]
    by_cases hc : can_start_plugin m n
    · rw [if_pos hc]
      cases hs : (start_plugin f now m n).2
      · simp only []
        rw [ih]
        rw [manifestOf_modifyP _ _ _ failFn (fun _ _ => rfl)]
        exact manifestOf_start_plugin f now m n q
      · simp only []
        rw [ih]
        exact manifestOf_start_plugin f now m n q
    · rw [if_neg hc]
      simp only []
      rw [ih]
      exact manifestOf_modifyP m n q waitFn (fun _ _ => rfl)

theorem prioKey_congr (m1 m2 : Mgr) (q : String)
    (h : manifestOf m1 q = manifestOf m2 q) : prioKey m1 q = prioKey m2 q := by
  unfold prioKey
  unfold manifestOf at h
  cases h1 : lookupP m1 q <;> cases h2 : lookupP m2 q <;> simp_all

theorem dependsOf_congr (m1 m2 : Mgr) (q : String)
    (h : manifestOf m1 q = manifestOf m2 q) : dependsOf m1 q = dependsOf m2 q := by
  unfold dependsOf
  unfold manifestOf at h
  cases h1 : lookupP m1 q <;> cases h2 : lookupP m2 q <;> simp_all

theorem runningIn_modifyP (m : Mgr) (x q : String) (g : PluginInstance → PluginInstance) :
    runningIn (modifyP m x g) q =
      if q = x then
        (match lookupP m x with
         | some p => ((g p).status).isRunning
         | none => false)
      else runningIn m q := by
  unfold runningIn
  rw [lookupP_modifyP]
  by_cases hq : q = x
  · rw [if_pos hq, if_pos hq]
    cases lookupP m x <;> simp
  · rw [if_neg hq, if_neg hq]

theorem activeIn_modifyP (m : Mgr) (x q : String) (g : PluginInstance → PluginInstance) :
    activeIn (modifyP m x g) q =
      if q = x then
        (match lookupP m x with
         | some p => ((g p).status).isActive
         | none => false)
      else activeIn m q := by
  unfold activeIn
  rw [lookupP_modifyP]
  by_cases hq : q = x
  · rw [if_pos hq, if_pos hq]
    cases lookupP m x <;> simp
  · rw [if_neg hq, if_neg hq]

theorem can_start_spec (m : Mgr) (n : String) (h : can_start_plugin m n = true) :
    ∀ dep ∈ dependsOf m n, runningIn m dep = true := by
  unfold can_start_plugin at h
  cases hl : lookupP m n
  · rw [hl] at h
    simp at h
  · rename_i p
    rw [hl] at h
    intro dep hdep
    unfold dependsOf at hdep
    rw [hl] at hdep
    simp only [Option.map_some] at hdep
    rw [List.all_eq_true] at h
    have h2 := h dep hdep
    unfold runningIn
    cases hd : lookupP m dep
    · rw [hd] at h2
      simp at h2
    · rw [hd] at h2
      simpa using h2

theorem isSome_modifyP (m : Mgr) (j x : String) (g : PluginInstance → PluginInstance) :
    (lookupP (modifyP m j g) x).isSome = (lookupP m x).isSome := by
  rw [lookupP_modifyP]
  by_cases hx : x = j
  · rw [if_pos hx, hx]
    cases lookupP m j <;> simp
  · rw [if_neg hx]

theorem can_start_iff (m : Mgr) (x : String) : can_start_plugin m x = true ↔
    ((lookupP m x).isSome = true ∧ ∀ dep ∈ dependsOf m x, runningIn m dep = true) := by
  unfold can_start_plugin dependsOf
  cases hl : lookupP m x
  · simp
  · rename_i p
    simp only [Option.isSome_some, true_and, List.all_eq_true]
    constructor
    · intro h dep hdep
      have h2 := h dep hdep
      unfold runningIn
      cases hd : lookupP m dep
      · (try rw [hd] at h2); simp at h2
      · (try rw [hd] at h2); simpa using h2
    · intro h dep hdep
      have h2 := h dep hdep
      unfold runningIn at h2
      cases hd : lookupP m dep
      · (try rw [hd] at h2); simp at h2
      · (try rw [hd] at h2); simpa using h2

theorem can_start_false_waiting (m : Mgr) (j x : String)
    (h : can_start_plugin m x = false) :
    can_start_plugin (modifyP m j waitFn) x = false := by
  cases hcs : can_start_plugin (modifyP m j waitFn) x
  · rfl
  · exfalso
    rw [can_start_iff] at hcs
    obtain ⟨hsome, hdeps⟩ := hcs
    have htrue : can_start_plugin m x = true := by
      rw [can_start_iff]
      constructor
      · rw [isSome_modifyP] at hsome
        exact hsome
      · intro dep hdep
        have hdep2 : dep ∈ dependsOf (modifyP m j waitFn) x := by
          rw [dependsOf_congr (modifyP m j waitFn) m x
            (manifestOf_modifyP m j x waitFn (fun _ _ => rfl))]
          exact hdep
        have hr := hdeps dep hdep2
        rw [runningIn_modifyP] at hr
        by_cases hdj : dep = j
        · rw [if_pos hdj] at hr
          cases hlj : lookupP m j
          · rw [hlj] at hr
            simp at hr
          · rw [hlj] at hr
            simp [waitFn, PluginStatus.isRunning] at hr
        · rw [if_neg hdj] at hr
          exact hr
    rw [htrue] at h
    cases h

theorem isRunning_isActive (st : PluginStatus) (h : st.isRunning = true) :
    st.isActive = true := by
  cases st <;> simp_all [PluginStatus.isRunning, PluginStatus.isActive]

theorem lookupP_start_plugin_ne (f : String → Bool) (now : Int) (m : Mgr)
    (n q : String) (hqn : ¬ q = n) :
    lookupP (start_plugin f now m n).1 q = lookupP m q := by
  unfold start_plugin
  cases hl : lookupP m n
  · rfl
  · simp only []
    rw [lookupP_modifyP, if_neg hqn]

theorem runningIn_start_plugin_ne (f : String → Bool) (now : Int) (m : Mgr)
    (n q : String) (hqn : ¬ q = n) :
    runningIn (start_plugin f now m n).1 q = runningIn m q := by
  unfold runningIn
  rw [lookupP_start_plugin_ne f now m n q hqn]

theorem activeIn_start_plugin_ne (f : String → Bool) (now : Int) (m : Mgr)
    (n q : String) (hqn : ¬ q = n) :
    activeIn (start_plugin f now m n).1 q = activeIn m q := by
  unfold activeIn
  rw [lookupP_start_plugin_ne f now m n q hqn]

theorem runningIn_modifyP_ne (m : Mgr) (x q : String)
    (g : PluginInstance → PluginInstance) (hqx : ¬ q = x) :
    runningIn (modifyP m x g) q = runningIn m q := by
  rw [runningIn_modifyP, if_neg hqx]

theorem activeIn_modifyP_ne (m : Mgr) (x q : String)
    (g : PluginInstance → PluginInstance) (hqx : ¬ q = x) :
    activeIn (modifyP m x g) q = activeIn m q := by
  rw [activeIn_modifyP, if_neg hqx]

theorem scanPass_notmem (f : String → Bool) (now : Int) :
    ∀ (l : List String) (m : Mgr) (q : String), q ∉ l →
    lookupP (scanPass f now m l).1 q = lookupP m q := by
  intro l
  induction l with
  | nil => intro m q _; rfl
  | cons n rest ih =>
    intro m q hq
    have hqn : ¬ q = n := fun h => hq (h ▸ List.mem_cons_self n rest)
    have hqr : q ∉ rest := fun h => hq (List.mem_cons_of_mem _ h)
    simp only [scanPass]
    by_cases hc : can_start_plugin m n
    · rw [if_pos hc]
      cases hs : (start_plugin f now m n).2 <;> simp only []
      · rw [ih _ _ hqr, lookupP_modifyP, if_neg hqn]
        exact lookupP_start_plugin_ne f now m n q hqn
      · rw [ih _ _ hqr]
        exact lookupP_start_plugin_ne f now m n q hqn
    · rw [if_neg hc]
      simp only []
      rw [ih _ _ hqr, lookupP_modifyP, if_neg hqn]

theorem scanPass_blocked_sublist (f : String → Bool) (now : Int) :
    ∀ (l : List String) (m : Mgr), List.Sublist (scanPass f now m l).2.1 l := by
  intro l
  induction l with
  | nil => intro m; exact List.Sublist.refl []
  | cons n rest ih =>
    intro m
    simp only [scanPass]
    by_cases hc : can_start_plugin m n
    · rw [if_pos hc]
      cases hs : (start_plugin f now m n).2 <;> simp only []
      · exact List.Sublist.cons n (ih _)
      · exact List.Sublist.cons n (ih _)
    · rw [if_neg hc]
      simp only []
      exact List.Sublist.cons₂ n (ih _)

theorem scanPass_started_sublist (f : String → Bool) (now : Int) :
    ∀ (l : List String) (m : Mgr), List.Sublist (scanPass f now m l).2.2.1 l := by
  intro l
  induction l with
  | nil => intro m; exact List.Sublist.refl []
  | cons n rest ih =>
    intro m
    simp only [scanPass]
    by_cases hc : can_start_plugin m n
    · rw [if_pos hc]
      cases hs : (start_plugin f now m n).2 <;> simp only []
      · exact List.Sublist.cons n (ih _)
      · exact List.Sublist.cons₂ n (ih _)
    · rw [if_neg hc]
      simp only []
      exact List.Sublist.cons n (ih _)

theorem scanPass_running_new (f : String → Bool) (now : Int) :
    ∀ (l : List String) (m : Mgr) (q : String),
    runningIn (scanPass f now m l).1 q = true →
    runningIn m q = true ∨ q ∈ (scanPass f now m l).2.2.1 := by
  intro l
  induction l with
  | nil => intro m q h; exact Or.inl h
  | cons n rest ih =>
    intro m q h
    simp only [scanPass] at h ⊢
    by_cases hc : can_start_plugin m n
    · rw [if_pos hc] at h ⊢
      cases hs : (start_plugin f now m n).2
      all_goals try rw [hs] at h
      all_goals simp only [] at h ⊢
      · rcases ih _ q h with h2 | h2
        · by_cases hqn : q = n
          · rw [runningIn_modifyP, if_pos hqn] at h2
            exfalso
            cases hl : lookupP (start_plugin f now m n).1 n
            · (try rw [hl] at h2); simp at h2
            · (try rw [hl] at h2); simp [failFn, PluginStatus.isRunning] at h2
          · rw [runningIn_modifyP_ne _ _ _ _ hqn,
              runningIn_start_plugin_ne f now m n q hqn] at h2
            exact Or.inl h2
        · exact Or.inr h2
      · rcases ih _ q h with h2 | h2
        · by_cases hqn : q = n
          · exact Or.inr (List.mem_cons.mpr (Or.inl hqn))
          · rw [runningIn_start_plugin_ne f now m n q hqn] at h2
            exact Or.inl h2
        · exact Or.inr (List.mem_cons.mpr (Or.inr h2))
    · rw [if_neg hc] at h ⊢
      simp only [] at h ⊢
      rcases ih _ q h with h2 | h2
      · by_cases hqn : q = n
        · rw [runningIn_modifyP, if_pos hqn] at h2
          exfalso
          cases hl : lookupP m n
          · (try rw [hl] at h2); simp at h2
          · (try rw [hl] at h2); simp [waitFn, PluginStatus.isRunning] at h2
        · rw [runningIn_modifyP_ne _ _ _ _ hqn] at h2
          exact Or.inl h2
      · exact Or.inr h2

theorem depOrdered_append (m0 : Mgr) :
    ∀ (a b pre : List String),
    depOrdered m0 pre (a ++ b) =
      (depOrdered m0 pre a && depOrdered m0 (pre ++ a) b) := by
  intro a
  induction a with
  | nil =>
    intro b pre
    simp [depOrdered]
  | cons n a ih =>
    intro b pre
    simp only [List.cons_append, depOrdered, List.append_eq]
    rw [ih b (pre ++ [n]), List.append_assoc, List.singleton_append, Bool.and_assoc]

theorem pairwise_sortedByPrio (m : Mgr) :
    ∀ l, List.Pairwise (prioLe m) l → sortedByPrio m l = true := by
  intro l
  induction l with
  | nil => intro _; rfl
  | cons a l ih =>
    intro h
    cases l with
    | nil => rfl
    | cons b l2 =>
      rcases List.pairwise_cons.mp h with ⟨hab, htail⟩
      simp only [sortedByPrio, Bool.and_eq_true, decide_eq_true_eq]
      exact ⟨hab b (List.mem_cons_self b l2), ih htail⟩

theorem sortedByPrio_congr (m1 m2 : Mgr)
    (h : ∀ q, manifestOf m1 q = manifestOf m2 q) :
    ∀ l, sortedByPrio m1 l = sortedByPrio m2 l := by
  intro l
  induction l with
  | nil => rfl
  | cons a l ih =>
    cases l with
    | nil => rfl
    | cons b l2 =>
      simp only [sortedByPrio]
      rw [prioKey_congr m1 m2 a (h a), prioKey_congr m1 m2 b (h b), ih]

theorem scanPass_sound (f : String → Bool) (now : Int) (m0 : Mgr) :
    ∀ (l : List String) (m : Mgr) (pre : List String),
    (∀ q, runningIn m q = true → runningIn m0 q = true ∨ q ∈ pre) →
    (∀ q, manifestOf m q = manifestOf m0 q) →
    depOrdered m0 pre (scanPass f now m l).2.2.1 = true := by
  intro l
  induction l with
  | nil => intro m pre _ _; rfl
  | cons n rest ih =>
    intro m pre hrun hman
    simp only [scanPass]
    by_cases hc : can_start_plugin m n = true
    · rw [if_pos hc]
      cases hs : (start_plugin f now m n).2
      all_goals simp only []
      · apply ih
        · intro q hq
          by_cases hqn : q = n
          · rw [runningIn_modifyP, if_pos hqn] at hq
            exfalso
            cases hl : lookupP (start_plugin f now m n).1 n
            · (try rw [hl] at hq); simp at hq
            · (try rw [hl] at hq); simp [failFn, PluginStatus.isRunning] at hq
          · rw [runningIn_modifyP_ne _ _ _ _ hqn,
              runningIn_start_plugin_ne f now m n q hqn] at hq
            exact hrun q hq
        · intro q
          rw [manifestOf_modifyP _ _ _ failFn (fun _ _ => rfl),
            manifestOf_start_plugin]
          exact hman q
      · simp only [depOrdered, Bool.and_eq_true]
        constructor
        · rw [List.all_eq_true]
          intro dep hdep
          have hdeq : dependsOf m n = dependsOf m0 n := dependsOf_congr m m0 n (hman n)
          rw [← hdeq] at hdep
          have hr := can_start_spec m n hc dep hdep
          rcases hrun dep hr with h2 | h2
          · simp [h2]
          · simp [h2]
        · apply ih
          · intro q hq
            by_cases hqn : q = n
            · exact Or.inr (List.mem_append_right pre (by simp [hqn]))
            · rw [runningIn_start_plugin_ne f now m n q hqn] at hq
              rcases hrun q hq with h2 | h2
              · exact Or.inl h2
              · exact Or.inr (List.mem_append_left _ h2)
          · intro q
            rw [manifestOf_start_plugin]
            exact hman q
    · rw [if_neg hc]
      simp only []
      apply ih
      · intro q hq
        by_cases hqn : q = n
        · rw [runningIn_modifyP, if_pos hqn] at hq
          exfalso
          cases hl : lookupP m n
          · (try rw [hl] at hq); simp at hq
          · (try rw [hl] at hq); simp [waitFn, PluginStatus.isRunning] at hq
        · rw [runningIn_modifyP_ne _ _ _ _ hqn] at hq
          exact hrun q hq
      · intro q
        rw [manifestOf_modifyP _ _ _ waitFn (fun _ _ => rfl)]
        exact hman q

theorem scanPass_all_blocked (f : String → Bool) (now : Int) :
    ∀ (l : List String) (m : Mgr), (∀ n ∈ l, can_start_plugin m n = false) →
    (scanPass f now m l).2.1 = l ∧ (scanPass f now m l).2.2.2 = false := by
  intro l
  induction l with
  | nil => intro m _; exact ⟨rfl, rfl⟩
  | cons n rest ih =>
    intro m h
    have hn : can_start_plugin m n = false := h n (List.mem_cons_self n rest)
    simp only [scanPass]
    rw [if_neg (by simp [hn])]
    simp only []
    have hrest : ∀ x ∈ rest, can_start_plugin (modifyP m n waitFn) x = false :=
      fun x hx => can_start_false_waiting m n x (h x (List.mem_cons_of_mem n hx))
    obtain ⟨h1, h2⟩ := ih (modifyP m n waitFn) hrest
    exact ⟨by rw [h1], h2⟩

theorem loop_sound (f : String → Bool) (now : Int) (m0 : Mgr) :
    ∀ (fuel : Nat) (m : Mgr) (rem pre : List String) (mr : Mgr)
    (groups : List (List String)),
    (∀ q, runningIn m q = true → runningIn m0 q = true ∨ q ∈ pre) →
    (∀ q, manifestOf m q = manifestOf m0 q) →
    rem.Nodup →
    start_plugins_loop f now fuel m rem = Except.ok (mr, groups) →
    depOrdered m0 pre groups.flatten = true ∧
      ∀ g ∈ groups, sortedByPrio m0 g = true := by
  intro fuel
  induction fuel with
  | zero =>
    intro m rem pre mr groups hrun hman hnd heq
    simp only [start_plugins_loop] at heq
    by_cases hre : rem.isEmpty = true
    · rw [if_pos hre] at heq
      simp only [Except.ok.injEq, Prod.mk.injEq] at heq
      obtain ⟨_, hgr⟩ := heq
      subst hgr
      exact ⟨rfl, fun g hg => absurd hg (List.not_mem_nil g)⟩
    · rw [if_neg hre] at heq
      simp at heq
  | succ fuel ih =>
    intro m rem pre mr groups hrun hman hnd heq
    simp only [start_plugins_loop] at heq
    by_cases hre : rem.isEmpty = true
    · rw [if_pos hre] at heq
      simp only [Except.ok.injEq, Prod.mk.injEq] at heq
      obtain ⟨_, hgr⟩ := heq
      subst hgr
      exact ⟨rfl, fun g hg => absurd hg (List.not_mem_nil g)⟩
    · rw [if_neg hre] at heq
      by_cases hprog : (scanPass f now m (sortByPrio m rem)).2.2.2 = true
      · rw [if_pos hprog] at heq
        cases hrec : start_plugins_loop f now fuel
            (scanPass f now m (sortByPrio m rem)).1
            (scanPass f now m (sortByPrio m rem)).2.1 with
        | error e =>
          rw [hrec] at heq
          simp at heq
        | ok r =>
          rw [hrec] at heq
          simp only [Except.ok.injEq, Prod.mk.injEq] at heq
          obtain ⟨_, hgr⟩ := heq
          subst hgr
          have hperm : List.Perm (sortByPrio m rem) rem :=
            List.perm_insertionSort (prioLe m) rem
          have hndS : (sortByPrio m rem).Nodup := hperm.nodup_iff.mpr hnd
          have hnd2 : (scanPass f now m (sortByPrio m rem)).2.1.Nodup :=
            List.Nodup.sublist (scanPass_blocked_sublist f now (sortByPrio m rem) m) hndS
          have hrun2 : ∀ q, runningIn (scanPass f now m (sortByPrio m rem)).1 q = true →
              runningIn m0 q = true ∨
                q ∈ pre ++ (scanPass f now m (sortByPrio m rem)).2.2.1 := by
            intro q hq
            rcases scanPass_running_new f now (sortByPrio m rem) m q hq with h2 | h2
            · rcases hrun q h2 with h3 | h3
              · exact Or.inl h3
              · exact Or.inr (List.mem_append_left _ h3)
            · exact Or.inr (List.mem_append_right _ h2)
          have hman2 : ∀ q, manifestOf (scanPass f now m (sortByPrio m rem)).1 q =
              manifestOf m0 q :=
            fun q => (scanPass_manifest f now (sortByPrio m rem) m q).trans (hman q)
          obtain ⟨hdep, hsort⟩ := ih (scanPass f now m (sortByPrio m rem)).1
            (scanPass f now m (sortByPrio m rem)).2.1
            (pre ++ (scanPass f now m (sortByPrio m rem)).2.2.1) r.1 r.2
            hrun2 hman2 hnd2 hrec
          constructor
          · rw [List.flatten_cons, depOrdered_append, Bool.and_eq_true]
            exact ⟨scanPass_sound f now m0 (sortByPrio m rem) m pre hrun hman, hdep⟩
          · intro g hg
            rcases List.mem_cons.mp hg with hg1 | hg2
            · subst hg1
              have hs0 : List.Pairwise (prioLe m) (sortByPrio m rem) :=
                List.sorted_insertionSort (prioLe m) rem
              have hpw : List.Pairwise (prioLe m)
                  (scanPass f now m (sortByPrio m rem)).2.2.1 :=
                List.Pairwise.sublist
                  (scanPass_started_sublist f now (sortByPrio m rem) m) hs0
              rw [sortedByPrio_congr m0 m (fun q => (hman q).symm)]
              exact pairwise_sortedByPrio m _ hpw
            · exact hsort g hg2
      · rw [if_neg hprog] at heq
        simp at heq

theorem loop_all_blocked (f : String → Bool) (now : Int) (fuel : Nat) (m : Mgr)
    (rem : List String) (hne : rem ≠ [])
    (hall : ∀ n ∈ rem, can_start_plugin m n = false) :
    start_plugins_loop f now (fuel + 1) m rem =
      Except.error (PluginError.CircularDependencies
        ((sortByPrio m rem).map (fun n => (n, dependsOf m n)))) := by
  have hre : rem.isEmpty = false := by
    cases rem
    · exact absurd rfl hne
    · rfl
  have hallS : ∀ n ∈ sortByPrio m rem, can_start_plugin m n = false := by
    intro n hn
    exact hall n ((List.perm_insertionSort (prioLe m) rem).mem_iff.mp hn)
  obtain ⟨hb, hp⟩ := scanPass_all_blocked f now (sortByPrio m rem) m hallS
  simp only [start_plugins_loop]
  rw [if_neg (by simp [hre]), if_neg (by simp [hp]), hb]
  have hmap : ((sortByPrio m rem).map
      (fun n => (n, dependsOf (scanPass f now m (sortByPrio m rem)).1 n))) =
      (sortByPrio m rem).map (fun n => (n, dependsOf m n)) :=
    List.map_congr_left (fun n _ => by
      rw [dependsOf_congr _ m n (scanPass_manifest f now (sortByPrio m rem) m n)])
  rw [hmap]

/-- C3: during ordered batch startup, every plugin that gets started has
each declared dependency either already Running when the batch began or
itself started earlier in the batch order (so a plugin reaches Running
only behind its dependencies), each pass starts plugins in ascending
start_priority order, and when no remaining plugin is startable the
batch fails with a CircularDependencies error listing the unresolved
plugins and their dependency lists instead of looping forever. -/
theorem C3_ordered_startup (f : String → Bool) (now : Int) (m : Mgr)
    (names : List String) (hnd : names.Nodup) :
    (∀ (mr : Mgr) (groups : List (List String)),
      start_plugins_loop f now (names.length + 5) m names = Except.ok (mr, groups) →
      start_plugins_ordered f now m names = Except.ok (mr, groups.flatten) ∧
      depOrdered m [] groups.flatten = true ∧
      ∀ g ∈ groups, sortedByPrio m g = true) ∧
    (names ≠ [] → (∀ n ∈ names, can_start_plugin m n = false) →
      start_plugins_ordered f now m names =
        Except.error (PluginError.CircularDependencies
          ((sortByPrio m names).map (fun n => (n, dependsOf m n))))) := by
  constructor
  · intro mr groups heq
    obtain ⟨hdep, hsort⟩ := loop_sound f now m (names.length + 5) m names [] mr groups
      (fun q hq => Or.inl hq) (fun _ => rfl) hnd heq
    refine ⟨?_, hdep, hsort⟩
    unfold start_plugins_ordered
    rw [heq]
  · intro hne hall
    have h := loop_all_blocked f now (names.length + 4) m names hne hall
    have h5 : start_plugins_loop f now (names.length + 5) m names =
        Except.error (PluginError.CircularDependencies
          ((sortByPrio m names).map (fun n => (n, dependsOf m n)))) := h
    unfold start_plugins_ordered
    rw [h5]

/-- Concrete run of the ordered-startup theorem on the two-plugin cyclic
fixture: the name list is duplicate-free, nothing is startable, and the
batch fails with the CircularDependencies error listing both plugins
with their dependency lists. -/
theorem C3_ordered_startup_witness :
    (["c1", "c2"] : List String).Nodup ∧
    start_plugins_ordered (fun _ => true) 0 exMgrCycle ["c1", "c2"] =
      Except.error (PluginError.CircularDependencies
        [("c1", ["c2"]), ("c2", ["c1"])]) :=
  ⟨by decide,
    ((C3_ordered_startup (fun _ => true) 0 exMgrCycle ["c1", "c2"] (by decide)).2
      (by decide) (by decide)).trans (by rfl)⟩

end Symbion
